import Mathlib

/-!
# MacroClient (src/qtvstest/MacroClient.h)

A shallow embedding of the `MacroClient` class: the host process handle
(`QProcess vsProcess`), the local socket (`QLocalSocket socket`) and the four
member functions `connectToServer`, `disconnectFromServer`,
`terminateServerProcess` and `runMacro`.

The Qt objects are external to the class.  Their observable state is kept in
the record `Client`; everything the outside world decides (whether the process
starts, whether a connection attempt succeeds, how long it takes, what a wait
on the socket delivers) is read from an environment `Env`, a stream of `Event`s
indexed by the number of environment-dependent calls made so far
(`Client.tick`).  The three `while` loops of `runMacro` have no bound in the
source, so they take an iteration budget and report when it is used up.
-/

namespace MacroClient

/-! ## Data model -/

/-- One octet on the wire. -/
abbrev Byte := Fin 256

/-- The values of `QProcess::ProcessState`. -/
inductive ProcessState where
  | NotRunning
  | Starting
  | Running
  deriving DecidableEq, Repr

/-- The values of `QLocalSocket::LocalSocketState`. -/
inductive SocketState where
  | UnconnectedState
  | ConnectingState
  | ConnectedState
  | ClosingState
  deriving DecidableEq, Repr

/-- The calls the client issues on its two Qt objects, in program order. -/
inductive Action where
  | start
  | openPipe (name : String)
  | abort
  | disconnect
  | terminate
  | kill
  | write (bytes : List Byte)
  deriving DecidableEq, Repr

/-- What the outside world answers to one environment-dependent call.  Each call
reads only the fields that concern it. -/
structure Event where
  /-- Answer to `waitForStarted`: the process reached `Running`. -/
  started : Bool := false
  /-- On a failed `waitForStarted`: the process is still `Starting` (timeout)
  rather than `NotRunning` (failed to start). -/
  stillStarting : Bool := false
  /-- Process id reported once started. -/
  pid : Nat := 0
  /-- Answer to `socket.connectToServer`: the pipe was opened. -/
  opened : Bool := false
  /-- Microseconds spent in this connection attempt (beyond the 100 µs sleep). -/
  dt : Nat := 0
  /-- Bytes of the write buffer transmitted during this flush or wait. -/
  sent : Nat := 0
  /-- Bytes that arrived from the peer during this wait. -/
  recv : List Byte := []
  /-- The channel was found closed during this flush or wait. -/
  drop : Bool := false
  /-- Answer to `waitForFinished`: the process exited within the timeout. -/
  finished : Bool := false

/-- The environment: the answer to the `t`-th environment-dependent call. -/
abbrev Env := Nat → Event

/-- Observable state of a `MacroClient`: `vsProcess`, `socket`, and bookkeeping. -/
structure Client where
  /-- Value of `vsProcess.state()`. -/
  proc : ProcessState := ProcessState.NotRunning
  /-- Value of `vsProcess.processId()`. -/
  pid : Nat := 0
  /-- Value of `socket.state()`. -/
  sock : SocketState := SocketState.UnconnectedState
  /-- Value of `socket.bytesToWrite()`. -/
  bytesToWrite : Nat := 0
  /-- The socket read buffer; `socket.bytesAvailable()` is its length. -/
  rbuf : List Byte := []
  /-- Number of environment-dependent calls made so far. -/
  tick : Nat := 0
  /-- Number of `waitForBytesWritten` / `waitForReadyRead` calls made so far. -/
  waits : Nat := 0
  /-- Calls issued so far. -/
  log : List Action := []
  deriving DecidableEq, Repr

/-- The arguments of the `socket.write` calls in a sequence of actions, in order. -/
def writes : List Action → List (List Byte)
  | [] => []
  | Action.write bs :: rest => bs :: writes rest
  | _ :: rest => writes rest

/-- All bytes passed to `socket.write` in a sequence of actions, in order. -/
def bytesWritten (log : List Action) : List Byte :=
  (writes log).flatten

/-- The number a byte sequence denotes when read lowest byte first. -/
def leValue : List Byte → Nat
  | [] => 0
  | b :: rest => b.val + 256 * leValue rest

/-! ## Integers and text -/

/-- A `qsizetype`/`size_t` count narrowed to a 32-bit `int` (two's complement). -/
def toInt32 (n : Nat) : Int :=
  if n % 2 ^ 32 < 2 ^ 31 then ((n % 2 ^ 32 : Nat) : Int) else ((n % 2 ^ 32 : Nat) : Int) - 2 ^ 32

/-- The `sizeof(int)` = 4 bytes at the address of an `int`, lowest byte first
(`reinterpret_cast<const char *>(&size)` on the little-endian target). -/
def int32Bytes (size : Int) : List Byte :=
  let u := (size % 2 ^ 32).toNat
  [Fin.ofNat (u % 256), Fin.ofNat (u / 256 % 256), Fin.ofNat (u / 65536 % 256),
   Fin.ofNat (u / 16777216 % 256)]

/-- The `int` stored in the first four bytes of a buffer
(`*reinterpret_cast<int *>(bytes.data())`); a missing byte reads as the
terminating zero of the `QByteArray`. -/
def readInt32 (bs : List Byte) : Int :=
  toInt32 ((bs.getD 0 0).val + 256 * (bs.getD 1 0).val + 65536 * (bs.getD 2 0).val
    + 16777216 * (bs.getD 3 0).val)

/-- UTF-8 encoding of one Unicode scalar value. -/
def utf8EncodeChar (ch : Char) : List Byte :=
  let v := ch.val.toNat
  if v ≤ 0x7f then [Fin.ofNat v]
  else if v ≤ 0x7ff then [Fin.ofNat (0xc0 + v / 64), Fin.ofNat (0x80 + v % 64)]
  else if v ≤ 0xffff then
    [Fin.ofNat (0xe0 + v / 4096), Fin.ofNat (0x80 + v / 64 % 64), Fin.ofNat (0x80 + v % 64)]
  else
    [Fin.ofNat (0xf0 + v / 262144), Fin.ofNat (0x80 + v / 4096 % 64),
     Fin.ofNat (0x80 + v / 64 % 64), Fin.ofNat (0x80 + v % 64)]

/-- The bytes of `QString::toUtf8()` for a text given as Unicode scalar values. -/
def toUtf8 (s : String) : List Byte :=
  s.data.flatMap utf8EncodeChar

/-- Whether a byte is a UTF-8 continuation byte `10xxxxxx`. -/
def isCont (b : Byte) : Bool := b.val / 64 = 2

/-- The scalar value `v` as a character, or U+FFFD when `v` is not one. -/
def scalar (v : Nat) : Char :=
  if h : v < 0xd800 ∨ (0xdfff < v ∧ v < 0x110000) then
    Char.ofNatAux v (by
      rcases h with h | h
      · exact Or.inl h
      · exact Or.inr h)
  else Char.ofNat 0xfffd

/-- Decoder behind `QString::fromUtf8`: well-formed sequences give their scalar
value, a byte that starts no well-formed sequence gives U+FFFD. -/
def decodeUtf8 : Nat → List Byte → List Char
  | 0, _ => []
  | _, [] => []
  | n + 1, b0 :: rest =>
    let v0 := b0.val
    if v0 < 0x80 then scalar v0 :: decodeUtf8 n rest
    else if 0xc2 ≤ v0 ∧ v0 < 0xe0 then
      match rest with
      | b1 :: r1 =>
        if isCont b1 then scalar ((v0 - 0xc0) * 64 + (b1.val - 0x80)) :: decodeUtf8 n r1
        else Char.ofNat 0xfffd :: decodeUtf8 n rest
      | _ => Char.ofNat 0xfffd :: decodeUtf8 n rest
    else if 0xe0 ≤ v0 ∧ v0 < 0xf0 then
      match rest with
      | b1 :: b2 :: r2 =>
        let v := (v0 - 0xe0) * 4096 + (b1.val - 0x80) * 64 + (b2.val - 0x80)
        if isCont b1 ∧ isCont b2 ∧ 0x800 ≤ v ∧ ¬ (0xd800 ≤ v ∧ v ≤ 0xdfff) then
          scalar v :: decodeUtf8 n r2
        else Char.ofNat 0xfffd :: decodeUtf8 n rest
      | _ => Char.ofNat 0xfffd :: decodeUtf8 n rest
    else if 0xf0 ≤ v0 ∧ v0 < 0xf5 then
      match rest with
      | b1 :: b2 :: b3 :: r3 =>
        let v := (v0 - 0xf0) * 262144 + (b1.val - 0x80) * 4096 + (b2.val - 0x80) * 64
          + (b3.val - 0x80)
        if isCont b1 ∧ isCont b2 ∧ isCont b3 ∧ 0x10000 ≤ v ∧ v < 0x110000 then
          scalar v :: decodeUtf8 n r3
        else Char.ofNat 0xfffd :: decodeUtf8 n rest
      | _ => Char.ofNat 0xfffd :: decodeUtf8 n rest
    else Char.ofNat 0xfffd :: decodeUtf8 n rest

/-- The text of `QString::fromUtf8(data)`. -/
def fromUtf8 (data : List Byte) : String :=
  String.mk (decodeUtf8 data.length data)

/-- The literal returned on every disconnection. -/
def disconnectedText : String := "(error)\r\nDisconnected"

/-- The name of the pipe: `QStringLiteral("QtVSTest_%1").arg(vsProcess.processId())`. -/
def pipeName (pid : Nat) : String := "QtVSTest_" ++ toString pid

/-! ## The Qt calls the class makes -/

/-- Model of `vsProcess.start()`: a process that is not running goes to
`Starting`; on any other state the call is ignored by Qt. -/
def processStart (c : Client) : Client :=
  { c with
    log := c.log ++ [Action.start]
    proc := if c.proc = ProcessState.NotRunning then ProcessState.Starting else c.proc }

/-- Model of `vsProcess.waitForStarted()`: immediate on a process that is already
running or not running at all; otherwise the environment says whether the
process came up, and with which process id. -/
def waitForStarted (env : Env) (c : Client) : Bool × Client :=
  match c.proc with
  | ProcessState.Running => (true, c)
  | ProcessState.NotRunning => (false, c)
  | ProcessState.Starting =>
    let e := env c.tick
    if e.started then
      (true, { c with tick := c.tick + 1, proc := ProcessState.Running, pid := e.pid })
    else
      (false, { c with
        tick := c.tick + 1
        proc := if e.stillStarting then ProcessState.Starting else ProcessState.NotRunning })

/-- Model of `vsProcess.terminate()`: the request is issued, nothing changes yet. -/
def processTerminate (c : Client) : Client :=
  { c with log := c.log ++ [Action.terminate] }

/-- Model of `vsProcess.kill()`: the request is issued, nothing changes yet. -/
def processKill (c : Client) : Client :=
  { c with log := c.log ++ [Action.kill] }

/-- Model of `vsProcess.waitForFinished(msecs)`: false at once on a process that
is not running; otherwise the environment says whether the process exited within
the timeout. -/
def waitForFinished (env : Env) (c : Client) : Bool × Client :=
  match c.proc with
  | ProcessState.NotRunning => (false, c)
  | _ =>
    let e := env c.tick
    if e.finished then
      (true, { c with tick := c.tick + 1, proc := ProcessState.NotRunning })
    else (false, { c with tick := c.tick + 1 })

/-- Model of `socket.connectToServer(pipeName, QIODevice::ReadWrite)`: ignored by
Qt on a socket that is connected or connecting; otherwise the environment says
whether the pipe was opened.  A newly opened device has empty buffers. -/
def socketConnectToServer (env : Env) (name : String) (c : Client) : Client :=
  let e := env c.tick
  let c := { c with tick := c.tick + 1, log := c.log ++ [Action.openPipe name] }
  if c.sock = SocketState.ConnectedState ∨ c.sock = SocketState.ConnectingState then c
  else if e.opened then
    { c with sock := SocketState.ConnectedState, rbuf := [], bytesToWrite := 0 }
  else { c with sock := SocketState.UnconnectedState }

/-- Model of `socket.abort()`: the socket is closed at once and its buffers are
dropped. -/
def socketAbort (c : Client) : Client :=
  { c with
    log := c.log ++ [Action.abort]
    sock := SocketState.UnconnectedState, rbuf := [], bytesToWrite := 0 }

/-- Model of `socket.disconnectFromServer()`: the socket closes, going through
`ClosingState` while written bytes are still pending. -/
def socketDisconnectFromServer (c : Client) : Client :=
  if c.bytesToWrite ≠ 0 then
    { c with log := c.log ++ [Action.disconnect], sock := SocketState.ClosingState }
  else
    { c with log := c.log ++ [Action.disconnect], sock := SocketState.UnconnectedState, rbuf := [] }

/-- Model of `socket.write(bytes)`: the bytes are handed to the socket, which
buffers them when it is connected. -/
def socketWrite (bytes : List Byte) (c : Client) : Client :=
  { c with
    log := c.log ++ [Action.write bytes]
    bytesToWrite :=
      if c.sock = SocketState.ConnectedState then c.bytesToWrite + bytes.length
      else c.bytesToWrite }

/-- Model of `socket.flush()`: some buffered bytes are transmitted without
blocking; the socket may find the channel closed. -/
def socketFlush (env : Env) (c : Client) : Client :=
  let e := env c.tick
  { c with
    tick := c.tick + 1
    bytesToWrite := c.bytesToWrite - e.sent
    sock := if e.drop then SocketState.UnconnectedState else c.sock }

/-- What one bounded wait on the socket does: buffered bytes may be transmitted,
bytes from the peer may arrive in the read buffer, and the socket may find the
channel closed (bytes already received stay in the buffer). -/
def socketWait (env : Env) (c : Client) : Client :=
  let e := env c.tick
  { c with
    tick := c.tick + 1
    waits := c.waits + 1
    bytesToWrite := c.bytesToWrite - e.sent
    rbuf := c.rbuf ++ e.recv
    sock := if e.drop then SocketState.UnconnectedState else c.sock }

/-- Model of `socket.waitForBytesWritten(15000)`. -/
def waitForBytesWritten (env : Env) (c : Client) : Client := socketWait env c

/-- Model of `socket.waitForReadyRead(15000)`. -/
def waitForReadyRead (env : Env) (c : Client) : Client := socketWait env c

/-- Model of `socket.read(maxSize)`: at most `maxSize` bytes are taken from the front
of the read buffer; a negative `maxSize` yields nothing. -/
def socketRead (maxSize : Int) (c : Client) : List Byte × Client :=
  if maxSize < 0 then ([], c)
  else (c.rbuf.take maxSize.toNat, { c with rbuf := c.rbuf.drop maxSize.toNat })

/-- Model of `timer.hasExpired(30000)`: the elapsed whole milliseconds exceed
30000. -/
def hasExpired (elapsedUs : Nat) : Bool := decide (30000 < elapsedUs / 1000)

/-! ## The member functions -/

/-- The loop at lines 68-74 of `connectToServer`.  `elapsedUs` is the reading of the
`QElapsedTimer`; a failed attempt costs its own duration plus the 100 µs
sleep. -/
def connectLoop (env : Env) (name : String) : Nat → Nat → Client → Client
  | 0, _, c => c
  | fuel + 1, elapsedUs, c =>
    if !hasExpired elapsedUs && decide (c.sock ≠ SocketState.ConnectedState) then
      let dt := (env c.tick).dt
      let c := socketConnectToServer env name c
      if c.sock ≠ SocketState.ConnectedState then
        connectLoop env name fuel (elapsedUs + dt + 100) (socketAbort c)
      else connectLoop env name fuel (elapsedUs + dt) c
    else c

/-- Number of iterations after which the 30 s budget has certainly expired:
every failed iteration sleeps 100 µs. -/
def connectBudget : Nat := 300011

/-- Embedding of `MacroClient::connectToServer` (lines 55-77). -/
def connectToServer (env : Env) (c : Client) : Bool × Client :=
  let started :=
    if c.proc ≠ ProcessState.Running then waitForStarted env (processStart c) else (true, c)
  if !started.1 then (false, started.2)
  else
    let c := started.2
    let c := connectLoop env (pipeName c.pid) connectBudget 0 c
    (decide (c.sock = SocketState.ConnectedState), c)

/-- Embedding of `MacroClient::terminateServerProcess` (lines 93-106). -/
def terminateServerProcess (env : Env) (c : Client) : Bool × Client :=
  if c.proc ≠ ProcessState.Running then (true, c)
  else
    let w1 := waitForFinished env (processTerminate c)
    if !w1.1 then
      let w2 := waitForFinished env (processKill w1.2)
      if !w2.1 then (false, w2.2) else (true, w2.2)
    else (true, w1.2)

/-- Embedding of `MacroClient::disconnectFromServer` (lines 79-91). -/
def disconnectFromServer (env : Env) (closeVs : Bool) (c : Client) : Bool × Client :=
  if c.proc ≠ ProcessState.Running then (true, c)
  else
    let c := if c.sock = SocketState.ConnectedState then socketDisconnectFromServer c else c
    if closeVs then terminateServerProcess env c else (true, c)

/-- A `while (socket.state() == ConnectedState && cond) wait;` loop of `runMacro`,
run for at most `fuel` iterations.  The flag is false when the budget ran out with
the loop condition still true. -/
def waitLoop (cond : Client → Bool) (wait : Client → Client) : Nat → Client → Client × Bool
  | fuel, c =>
    if decide (c.sock = SocketState.ConnectedState) && cond c then
      match fuel with
      | 0 => (c, false)
      | fuel + 1 => waitLoop cond wait fuel (wait c)
    else (c, true)

/-- How a call of `runMacro` ends. -/
inductive Outcome where
  /-- One of the `return QStringLiteral("(error)\r\nDisconnected")` statements. -/
  | disconnected
  /-- The final `return QString::fromUtf8(data)`, with `data` as read. -/
  | response (data : List Byte)
  /-- Still inside one of the wait loops when the iteration budget ran out. -/
  | blocked
  deriving DecidableEq, Repr

/-- The string a call returns, if it returns. -/
def Outcome.text : Outcome → Option String
  | Outcome.disconnected => some disconnectedText
  | Outcome.response data => some (fromUtf8 data)
  | Outcome.blocked => none

/-- Line 110 of `runMacro`: `socket.state() != ConnectedState && !connectToServer()`
with its short-circuit; the flag is false when `runMacro` returns here. -/
def ensureConnected (env : Env) (c : Client) : Bool × Client :=
  if c.sock ≠ SocketState.ConnectedState then connectToServer env c else (true, c)

/-- Lines 113-117 of `runMacro`: the length and the data are written. -/
def sendFrame (data : List Byte) (c : Client) : Client :=
  let size := toInt32 data.length
  socketWrite data (socketWrite (int32Bytes size) c)

/-- Lines 113-118 of `runMacro`: encode, write, flush. -/
def afterFlush (env : Env) (macroCode : String) (c : Client) : Client :=
  socketFlush env (sendFrame (toUtf8 macroCode) c)

/-- Lines 123-124 of `runMacro`: wait until the write buffer is empty. -/
def drainLoop (env : Env) (fuel : Nat) (c : Client) : Client × Bool :=
  waitLoop (fun c => decide (c.bytesToWrite ≠ 0)) (waitForBytesWritten env) fuel c

/-- Lines 128-129 of `runMacro`: wait until four bytes are available. -/
def prefixLoop (env : Env) (fuel : Nat) (c : Client) : Client × Bool :=
  waitLoop (fun c => decide (c.rbuf.length < 4)) (waitForReadyRead env) fuel c

/-- Lines 135-136 of `runMacro`: wait until `size` bytes are available. -/
def payloadLoop (env : Env) (size : Int) (fuel : Nat) (c : Client) : Client × Bool :=
  waitLoop (fun c => decide ((c.rbuf.length : Int) < size)) (waitForReadyRead env) fuel c

/-- Lines 133-141 of `runMacro`: read the length, wait for the data, read it. -/
def receivePayload (env : Env) (fuel : Nat) (c : Client) : Outcome × Client :=
  let r := socketRead 4 c
  let size := readInt32 r.1
  let w := payloadLoop env size fuel r.2
  if !w.2 then (Outcome.blocked, w.1)
  else if w.1.sock ≠ SocketState.ConnectedState then (Outcome.disconnected, w.1)
  else
    let d := socketRead size w.1
    (Outcome.response d.1, d.2)

/-- Lines 128-141 of `runMacro`: the receive side. -/
def receiveFrame (env : Env) (fuel : Nat) (c : Client) : Outcome × Client :=
  let w := prefixLoop env fuel c
  if !w.2 then (Outcome.blocked, w.1)
  else if w.1.sock ≠ SocketState.ConnectedState then (Outcome.disconnected, w.1)
  else receivePayload env fuel w.1

/-- Lines 113-141 of `runMacro`: the exchange on a socket found connected. -/
def exchange (env : Env) (fuel : Nat) (macroCode : String) (c : Client) : Outcome × Client :=
  let c := afterFlush env macroCode c
  if c.sock ≠ SocketState.ConnectedState then (Outcome.disconnected, c)
  else
    let w := drainLoop env fuel c
    if !w.2 then (Outcome.blocked, w.1)
    else if w.1.sock ≠ SocketState.ConnectedState then (Outcome.disconnected, w.1)
    else receiveFrame env fuel w.1

/-- Embedding of `MacroClient::runMacro` (lines 108-142), with the way it ended.
Each wait loop may run for at most `fuel` iterations. -/
def runMacroOutcome (env : Env) (fuel : Nat) (macroCode : String) (c : Client) :
    Outcome × Client :=
  let e := ensureConnected env c
  if !e.1 then (Outcome.disconnected, e.2)
  else exchange env fuel macroCode e.2

/-- The value `runMacro` returns (`none`: no return within the budget) and the
state it leaves. -/
def runMacro (env : Env) (fuel : Nat) (macroCode : String) (c : Client) :
    Option String × Client :=
  let r := runMacroOutcome env fuel macroCode c
  (r.1.text, r.2)

/-! ## Concrete clients and environments -/

/-- A newly constructed client: no process, socket unconnected. -/
def freshClient : Client := {}

/-- A client whose host runs and whose channel is open, with empty buffers. -/
def connectedClient : Client :=
  { proc := ProcessState.Running, pid := 4242, sock := SocketState.ConnectedState }

/-- A client whose host runs and whose channel is not open. -/
def runningClient : Client := { proc := ProcessState.Running, pid := 4242 }

/-- An environment in which nothing ever happens: no start, no connection, no byte
moved, no close, no exit. -/
def idleEnv : Env := fun _ => {}

/-- A host that ignores both the terminate request and the kill. -/
def stubbornHost : Env := fun _ => { finished := false }

/-- The host starts and opens its pipe, exits when asked to terminate, and cannot
be started again. -/
def hostGoneEnv : Env := fun t =>
  match t with
  | 0 => { started := true, pid := 4242 }
  | 1 => { opened := true }
  | 2 => { finished := true }
  | _ => { sent := 64 }

/-- The client state after `connectToServer()` succeeded and
`terminateServerProcess()` then stopped the host: the process is no longer
running while the socket has not yet been told that the pipe is gone. -/
def orphanedClient : Client :=
  (terminateServerProcess hostGoneEnv (connectToServer hostGoneEnv freshClient).2).2

/-- The scenario of a first call: the host starts, its pipe opens at the first
attempt, the request is transmitted by the flush, and the peer answers with the
length 1 and then the one byte `2`. -/
def firstCallEnv : Env := fun t =>
  match t with
  | 0 => { started := true, pid := 4242 }
  | 1 => { opened := true }
  | 2 => { sent := 64 }
  | 3 => { recv := [1, 0, 0, 0] }
  | 4 => { recv := [0x32] }
  | _ => {}

/-- The same scenario with a slower host: the first attempt to open the pipe
fails after two seconds, the flush transmits only the length, and the response
arrives in two pieces that do not respect the frame layout. -/
def slowCallEnv : Env := fun t =>
  match t with
  | 0 => { started := true, pid := 77 }
  | 1 => { opened := false, dt := 2000000 }
  | 2 => { opened := true }
  | 3 => { sent := 4 }
  | 4 => { sent := 3 }
  | 5 => { recv := [1, 0] }
  | 6 => { recv := [0, 0, 0x32] }
  | _ => {}

/-- The request is transmitted by the flush; during the first wait the whole
response frame (length 1, byte `2`) arrives and the peer closes the channel. -/
def answerAndCloseEnv : Env := fun t =>
  match t with
  | 0 => { sent := 64 }
  | 1 => { recv := [1, 0, 0, 0, 0x32], drop := true }
  | _ => {}

/-- The request is transmitted by the flush; the peer sends the length 5 and
closes the channel before any payload byte. -/
def lengthThenCloseEnv : Env := fun t =>
  match t with
  | 0 => { sent := 64 }
  | 1 => { recv := [5, 0, 0, 0] }
  | 2 => { drop := true }
  | _ => {}

/-- The request is transmitted by the flush; the peer keeps the channel open and
never sends anything. -/
def silentPeerEnv : Env := fun _ => { sent := 64 }

/-- The bytes arriving from the peer during the `k` waits that start at call
number `t`. -/
def recvBytes (env : Env) : Nat → Nat → List Byte
  | _, 0 => []
  | t, k + 1 => (env t).recv ++ recvBytes env (t + 1) k

/-- Bookkeeping for a channel that closes during call number `D`: a client that
entered the exchange at call number `T0` with `W0` waits behind it has made one
wait per call since, is at most one call past `D`, and while its socket is
connected has not reached call `D` yet. -/
def WaitBudget (D T0 W0 : Nat) (c : Client) : Prop :=
  T0 ≤ c.tick ∧ c.tick ≤ D + 1 ∧ (c.sock = SocketState.ConnectedState → c.tick ≤ D)
    ∧ c.waits + T0 = W0 + c.tick

/-- While the socket is connected, the read buffer followed by everything that
still arrives up to call number `D` is `x`. -/
def Pending (env : Env) (D : Nat) (x : List Byte) (c : Client) : Prop :=
  c.sock = SocketState.ConnectedState →
    c.tick ≤ D ∧ c.rbuf ++ recvBytes env c.tick (D + 1 - c.tick) = x

/-! ## Basic facts about the model -/

theorem writes_append (xs ys : List Action) :
    writes (xs ++ ys) = writes xs ++ writes ys := by
  induction xs with
  | nil => rfl
  | cons a rest ih => cases a <;> simp [writes, ih]

theorem waitLoop_zero (cond : Client → Bool) (wait : Client → Client) (c : Client) :
    waitLoop cond wait 0 c =
      if decide (c.sock = SocketState.ConnectedState) && cond c then (c, false) else (c, true) := by
  rw [waitLoop]

theorem waitLoop_succ (cond : Client → Bool) (wait : Client → Client) (fuel : Nat) (c : Client) :
    waitLoop cond wait (fuel + 1) c =
      if decide (c.sock = SocketState.ConnectedState) && cond c then waitLoop cond wait fuel (wait c)
      else (c, true) := by
  rw [waitLoop]

/-- A property kept by every wait made while the loop condition holds is kept by
the whole loop. -/
theorem waitLoop_inv (P : Client → Prop) (cond : Client → Bool) (wait : Client → Client)
    (hstep : ∀ c, P c → c.sock = SocketState.ConnectedState → cond c = true → P (wait c)) :
    ∀ (fuel : Nat) (c : Client), P c → P (waitLoop cond wait fuel c).1 := by
  intro fuel
  induction fuel with
  | zero =>
    intro c hc
    rw [waitLoop_zero]
    split <;> exact hc
  | succ n ih =>
    intro c hc
    rw [waitLoop_succ]
    split
    · rename_i h
      simp only [Bool.and_eq_true, decide_eq_true_eq] at h
      exact ih _ (hstep c hc h.1 h.2)
    · exact hc

/-- A loop that was left (rather than cut short) was left because its condition
failed. -/
theorem waitLoop_exit (cond : Client → Bool) (wait : Client → Client) :
    ∀ (fuel : Nat) (c : Client), (waitLoop cond wait fuel c).2 = true →
      (waitLoop cond wait fuel c).1.sock = SocketState.ConnectedState →
      cond (waitLoop cond wait fuel c).1 = false := by
  intro fuel
  induction fuel with
  | zero =>
    intro c
    rw [waitLoop_zero]
    split
    · simp
    · rename_i h
      intro _ hs
      simp only [Bool.and_eq_true, decide_eq_true_eq, not_and, Bool.not_eq_true] at h
      exact h hs
  | succ n ih =>
    intro c
    rw [waitLoop_succ]
    split
    · exact ih _
    · rename_i h
      intro _ hs
      simp only [Bool.and_eq_true, decide_eq_true_eq, not_and, Bool.not_eq_true] at h
      exact h hs

/-- A loop whose condition fails at entry does nothing. -/
theorem waitLoop_skip (cond : Client → Bool) (wait : Client → Client) (fuel : Nat) (c : Client)
    (h : (decide (c.sock = SocketState.ConnectedState) && cond c) = false) :
    waitLoop cond wait fuel c = (c, true) := by
  cases fuel with
  | zero => rw [waitLoop_zero, h]; rfl
  | succ n => rw [waitLoop_succ, h]; rfl

/-! ## The connection loop -/

theorem connectLoop_connected (env : Env) (name : String) (fuel elapsedUs : Nat) (c : Client)
    (h : c.sock = SocketState.ConnectedState) : connectLoop env name fuel elapsedUs c = c := by
  cases fuel with
  | zero => rfl
  | succ n => simp [connectLoop, h]

theorem connectLoop_expired (env : Env) (name : String) (fuel elapsedUs : Nat) (c : Client)
    (h : 30001000 ≤ elapsedUs) : connectLoop env name fuel elapsedUs c = c := by
  cases fuel with
  | zero => rfl
  | succ n =>
    have : hasExpired elapsedUs = true := by
      simp only [hasExpired, decide_eq_true_eq]
      omega
    simp [connectLoop, this]

/-- The 30 s budget ends the loop: once the iteration budget covers 30001000 µs
of 100 µs sleeps, a larger budget changes nothing. -/
theorem connectLoop_enough (env : Env) (name : String) :
    ∀ (fuel elapsedUs : Nat) (c : Client), 30001000 ≤ elapsedUs + 100 * fuel →
      ∀ extra : Nat, connectLoop env name (fuel + extra) elapsedUs c
        = connectLoop env name fuel elapsedUs c := by
  intro fuel
  induction fuel with
  | zero =>
    intro elapsedUs c h extra
    rw [connectLoop_expired env name _ _ c (by omega), connectLoop_expired env name _ _ c (by omega)]
  | succ n ih =>
    intro elapsedUs c h extra
    have e : n + 1 + extra = (n + extra) + 1 := by omega
    rw [e]
    simp only [connectLoop]
    split
    · split
      · exact ih _ _ (by omega) extra
      · rename_i hc
        have hc' := of_not_not hc
        rw [connectLoop_connected env name _ _ _ hc', connectLoop_connected env name _ _ _ hc']
    · rfl

/-- The connection loop issues no write. -/
theorem connectLoop_writes (env : Env) (name : String) :
    ∀ (fuel elapsedUs : Nat) (c : Client),
      writes (connectLoop env name fuel elapsedUs c).log = writes c.log := by
  intro fuel
  induction fuel with
  | zero => intro _ _; rfl
  | succ n ih =>
    intro elapsedUs c
    simp only [connectLoop]
    split
    · split
      · rw [ih]
        simp only [socketAbort, socketConnectToServer]
        split <;> [skip; split] <;> simp [writes_append, writes]
      · rw [ih]
        simp only [socketConnectToServer]
        split <;> [skip; split] <;> simp [writes_append, writes]
    · rfl

/-- The connection loop makes no wait on an open socket. -/
theorem connectLoop_waits (env : Env) (name : String) :
    ∀ (fuel elapsedUs : Nat) (c : Client),
      (connectLoop env name fuel elapsedUs c).waits = c.waits := by
  intro fuel
  induction fuel with
  | zero => intro _ _; rfl
  | succ n ih =>
    intro elapsedUs c
    simp only [connectLoop]
    split
    · split
      · rw [ih]
        simp only [socketAbort, socketConnectToServer]
        split <;> [skip; split] <;> rfl
      · rw [ih]
        simp only [socketConnectToServer]
        split <;> [skip; split] <;> rfl
    · rfl

theorem connectToServer_running (env : Env) (c : Client) (h : c.proc = ProcessState.Running) :
    connectToServer env c =
      (decide ((connectLoop env (pipeName c.pid) connectBudget 0 c).sock
          = SocketState.ConnectedState),
        connectLoop env (pipeName c.pid) connectBudget 0 c) := by
  simp [connectToServer, h]

theorem connectToServer_start_failed (env : Env) (c : Client) (h : c.proc ≠ ProcessState.Running)
    (hf : (waitForStarted env (processStart c)).1 = false) :
    connectToServer env c = (false, (waitForStarted env (processStart c)).2) := by
  simp [connectToServer, h, hf]

theorem connectToServer_started (env : Env) (c : Client) (h : c.proc ≠ ProcessState.Running)
    (hs : (waitForStarted env (processStart c)).1 = true) :
    connectToServer env c =
      (decide ((connectLoop env (pipeName (waitForStarted env (processStart c)).2.pid)
          connectBudget 0 (waitForStarted env (processStart c)).2).sock
            = SocketState.ConnectedState),
        connectLoop env (pipeName (waitForStarted env (processStart c)).2.pid) connectBudget 0
          (waitForStarted env (processStart c)).2) := by
  simp [connectToServer, h, hs]

/-- The three ways through `connectToServer`. -/
theorem connectToServer_cases (env : Env) (c : Client) :
    (c.proc = ProcessState.Running ∧ connectToServer env c =
      (decide ((connectLoop env (pipeName c.pid) connectBudget 0 c).sock
          = SocketState.ConnectedState),
        connectLoop env (pipeName c.pid) connectBudget 0 c))
    ∨ (c.proc ≠ ProcessState.Running ∧ (waitForStarted env (processStart c)).1 = false ∧
        connectToServer env c = (false, (waitForStarted env (processStart c)).2))
    ∨ (c.proc ≠ ProcessState.Running ∧ (waitForStarted env (processStart c)).1 = true ∧
        connectToServer env c =
          (decide ((connectLoop env (pipeName (waitForStarted env (processStart c)).2.pid)
              connectBudget 0 (waitForStarted env (processStart c)).2).sock
                = SocketState.ConnectedState),
            connectLoop env (pipeName (waitForStarted env (processStart c)).2.pid) connectBudget 0
              (waitForStarted env (processStart c)).2)) := by
  by_cases h : c.proc = ProcessState.Running
  · exact Or.inl ⟨h, connectToServer_running env c h⟩
  · cases hs : (waitForStarted env (processStart c)).1
    · exact Or.inr (Or.inl ⟨h, rfl, connectToServer_start_failed env c h hs⟩)
    · exact Or.inr (Or.inr ⟨h, rfl, connectToServer_started env c h hs⟩)

theorem waitForStarted_writes (env : Env) (c : Client) :
    writes (waitForStarted env (processStart c)).2.log = writes c.log := by
  simp only [waitForStarted, processStart]
  split <;> [skip; skip; split] <;> simp [writes_append, writes]

theorem waitForStarted_waits (env : Env) (c : Client) :
    (waitForStarted env (processStart c)).2.waits = c.waits := by
  simp only [waitForStarted, processStart]
  split <;> [skip; skip; split] <;> rfl

theorem connectToServer_writes (env : Env) (c : Client) :
    writes (connectToServer env c).2.log = writes c.log := by
  rcases connectToServer_cases env c with ⟨_, e⟩ | ⟨_, _, e⟩ | ⟨_, _, e⟩ <;> rw [e]
  · exact connectLoop_writes env _ _ _ _
  · exact waitForStarted_writes env c
  · exact (connectLoop_writes env _ _ _ _).trans (waitForStarted_writes env c)

theorem connectToServer_waits (env : Env) (c : Client) :
    (connectToServer env c).2.waits = c.waits := by
  rcases connectToServer_cases env c with ⟨_, e⟩ | ⟨_, _, e⟩ | ⟨_, _, e⟩ <;> rw [e]
  · exact connectLoop_waits env _ _ _ _
  · exact waitForStarted_waits env c
  · exact (connectLoop_waits env _ _ _ _).trans (waitForStarted_waits env c)

theorem connectToServer_true (env : Env) (c : Client) (h : (connectToServer env c).1 = true) :
    (connectToServer env c).2.sock = SocketState.ConnectedState := by
  rcases connectToServer_cases env c with ⟨_, e⟩ | ⟨_, _, e⟩ | ⟨_, _, e⟩ <;> rw [e] at h ⊢
  · simpa using h
  · simp at h
  · simpa using h

/-! ## terminateServerProcess -/

/-- C8. `terminateServerProcess` returns false exactly when the host runs at the
call, outlives the wait after `terminate()` and outlives the wait after `kill()`,
and the host then still runs; on a host that is not running it returns true and
leaves the client untouched, so a second call does the same; the calls issued
are nothing, `terminate`, or `terminate` then `kill`, the last exactly when the
host ran and the first wait failed. -/
theorem terminateServerProcess_result (env : Env) (c : Client) :
    ((terminateServerProcess env c).1 = false ↔
      (c.proc = ProcessState.Running ∧ (env c.tick).finished = false
        ∧ (env (c.tick + 1)).finished = false))
    ∧ ((terminateServerProcess env c).1 = false →
        (terminateServerProcess env c).2.proc = ProcessState.Running)
    ∧ (c.proc ≠ ProcessState.Running →
        terminateServerProcess env c = (true, c)
        ∧ ∀ env2 : Env, terminateServerProcess env2 (terminateServerProcess env c).2 = (true, c))
    ∧ ((terminateServerProcess env c).2.log = c.log
        ∨ (terminateServerProcess env c).2.log = c.log ++ [Action.terminate]
        ∨ (terminateServerProcess env c).2.log = c.log ++ [Action.terminate, Action.kill])
    ∧ ((terminateServerProcess env c).2.log = c.log ++ [Action.terminate, Action.kill] ↔
        (c.proc = ProcessState.Running ∧ (env c.tick).finished = false)) := by
  by_cases hp : c.proc = ProcessState.Running
  · cases h1 : (env c.tick).finished <;> cases h2 : (env (c.tick + 1)).finished <;>
      simp [terminateServerProcess, waitForFinished, processTerminate, processKill, hp, h1, h2]
  · have e : terminateServerProcess env c = (true, c) := by simp [terminateServerProcess, hp]
    have e2 : ∀ env2 : Env, terminateServerProcess env2 c = (true, c) := by
      intro env2
      simp [terminateServerProcess, hp]
    simp [e, e2, hp]

/-- C8 at a host that ignores both requests: the call fails. -/
theorem terminateServerProcess_result_witness :
    (terminateServerProcess stubbornHost runningClient).1 = false :=
  (terminateServerProcess_result stubbornHost runningClient).1.2 ⟨rfl, rfl, rfl⟩

/-! ## connectToServer -/

theorem waitForStarted_result (env : Env) (c : Client) (h : c.proc ≠ ProcessState.Running) :
    (waitForStarted env (processStart c)).1 = (env c.tick).started
    ∧ (waitForStarted env (processStart c)).2.sock = c.sock := by
  cases hp : c.proc
  · cases hs : (env c.tick).started <;> simp [waitForStarted, processStart, hp, hs]
  · cases hs : (env c.tick).started <;> simp [waitForStarted, processStart, hp, hs]
  · exact absurd hp h

/-- C9 fails as stated: after a successful connect and a successful
`terminateServerProcess`, a `connectToServer` whose process start fails returns
false while the socket is still in `ConnectedState`. -/
theorem connectToServer_false_while_connected :
    (connectToServer hostGoneEnv orphanedClient).1 = false
    ∧ (connectToServer hostGoneEnv orphanedClient).2.sock = SocketState.ConnectedState
    ∧ ¬ ((connectToServer hostGoneEnv orphanedClient).1 = true ↔
        (connectToServer hostGoneEnv orphanedClient).2.sock = SocketState.ConnectedState) := by
  decide

/-- C9, amended. A true result means the channel is connected on return.  When
the host runs at the call or its start succeeds, the result is true exactly when
the channel is connected on return.  When the start fails, the result is false
and the socket is left as it was, so the channel is connected on return only if
it was at the call. -/
theorem connectToServer_result (env : Env) (c : Client) :
    ((connectToServer env c).1 = true →
      (connectToServer env c).2.sock = SocketState.ConnectedState)
    ∧ ((c.proc = ProcessState.Running ∨ (env c.tick).started = true) →
        ((connectToServer env c).1 = true ↔
          (connectToServer env c).2.sock = SocketState.ConnectedState))
    ∧ ((c.proc ≠ ProcessState.Running ∧ (env c.tick).started = false) →
        (connectToServer env c).1 = false ∧ (connectToServer env c).2.sock = c.sock) := by
  refine ⟨connectToServer_true env c, ?_, ?_⟩
  · intro h
    rcases connectToServer_cases env c with ⟨_, e⟩ | ⟨hp, hf, _⟩ | ⟨_, _, e⟩
    · rw [e]; simp
    · rw [(waitForStarted_result env c hp).1] at hf
      rcases h with h | h
      · exact absurd h hp
      · rw [hf] at h; exact absurd h (by decide)
    · rw [e]; simp
  · rintro ⟨hp, hs⟩
    have hf : (waitForStarted env (processStart c)).1 = false := by
      rw [(waitForStarted_result env c hp).1]; exact hs
    rw [connectToServer_start_failed env c hp hf]
    exact ⟨rfl, (waitForStarted_result env c hp).2⟩

/-- C9, amended, at a running host whose pipe never opens within the budget. -/
theorem connectToServer_result_witness :
    ((connectToServer (fun _ => { dt := 31000000 }) runningClient).1 = true ↔
      (connectToServer (fun _ => { dt := 31000000 }) runningClient).2.sock
        = SocketState.ConnectedState) :=
  (connectToServer_result (fun _ => { dt := 31000000 }) runningClient).2.1 (Or.inl rfl)

/-! ## What runMacro writes -/

theorem waitLoop_log (env : Env) (cond : Client → Bool) (fuel : Nat) (c : Client) :
    (waitLoop cond (socketWait env) fuel c).1.log = c.log :=
  waitLoop_inv (fun c' => c'.log = c.log) cond (socketWait env)
    (fun _ h _ _ => h) fuel c rfl

theorem drainLoop_eq (env : Env) (fuel : Nat) (c : Client) :
    drainLoop env fuel c
      = waitLoop (fun c => decide (c.bytesToWrite ≠ 0)) (socketWait env) fuel c := rfl

theorem prefixLoop_eq (env : Env) (fuel : Nat) (c : Client) :
    prefixLoop env fuel c
      = waitLoop (fun c => decide (c.rbuf.length < 4)) (socketWait env) fuel c := rfl

theorem payloadLoop_eq (env : Env) (size : Int) (fuel : Nat) (c : Client) :
    payloadLoop env size fuel c
      = waitLoop (fun c => decide ((c.rbuf.length : Int) < size)) (socketWait env) fuel c := rfl

theorem socketRead_log (maxSize : Int) (c : Client) : (socketRead maxSize c).2.log = c.log := by
  unfold socketRead
  split <;> rfl

theorem receivePayload_log (env : Env) (fuel : Nat) (c : Client) :
    (receivePayload env fuel c).2.log = c.log := by
  have h : (payloadLoop env (readInt32 (socketRead 4 c).1) fuel (socketRead 4 c).2).1.log
      = c.log := by
    rw [payloadLoop_eq, waitLoop_log, socketRead_log]
  simp only [receivePayload]
  split
  · exact h
  · split
    · exact h
    · exact (socketRead_log _ _).trans h

theorem receiveFrame_log (env : Env) (fuel : Nat) (c : Client) :
    (receiveFrame env fuel c).2.log = c.log := by
  have h : (prefixLoop env fuel c).1.log = c.log := by
    rw [prefixLoop_eq, waitLoop_log]
  simp only [receiveFrame]
  split
  · exact h
  · split
    · exact h
    · exact (receivePayload_log env fuel _).trans h

theorem afterFlush_log (env : Env) (macroCode : String) (c : Client) :
    (afterFlush env macroCode c).log =
      c.log ++ [Action.write (int32Bytes (toInt32 (toUtf8 macroCode).length)),
        Action.write (toUtf8 macroCode)] := by
  simp [afterFlush, sendFrame, socketFlush, socketWrite]

theorem exchange_log (env : Env) (fuel : Nat) (macroCode : String) (c : Client) :
    (exchange env fuel macroCode c).2.log =
      c.log ++ [Action.write (int32Bytes (toInt32 (toUtf8 macroCode).length)),
        Action.write (toUtf8 macroCode)] := by
  have h : (drainLoop env fuel (afterFlush env macroCode c)).1.log
      = (afterFlush env macroCode c).log := by
    rw [drainLoop_eq, waitLoop_log]
  simp only [exchange]
  split
  · exact afterFlush_log env macroCode c
  · split
    · exact h.trans (afterFlush_log env macroCode c)
    · split
      · exact h.trans (afterFlush_log env macroCode c)
      · exact (receiveFrame_log env fuel _).trans (h.trans (afterFlush_log env macroCode c))

theorem toInt32_of_lt (n : Nat) (h : n < 2 ^ 31) : toInt32 n = (n : Int) := by
  have h1 : n % 2 ^ 32 = n := Nat.mod_eq_of_lt (by omega)
  simp only [toInt32, h1]
  rw [if_pos h]

theorem leValue_int32Bytes (n : Nat) (h : n < 2 ^ 31) :
    leValue (int32Bytes (toInt32 n)) = n ∧ (int32Bytes (toInt32 n)).length = 4 := by
  rw [toInt32_of_lt n h]
  have e : ((n : Int) % 2 ^ 32).toNat = n := by
    have : ((n : Int) % 2 ^ 32) = (n : Int) := Int.emod_eq_of_lt (by omega) (by omega)
    rw [this]; rfl
  simp only [int32Bytes, e, leValue, Fin.ofNat, List.length_cons, List.length_nil]
  refine ⟨?_, trivial⟩
  omega

theorem readInt32_int32Bytes (n : Nat) (h : n < 2 ^ 31) :
    readInt32 (int32Bytes (toInt32 n)) = (n : Int) := by
  have hv := (leValue_int32Bytes n h).1
  have e : readInt32 (int32Bytes (toInt32 n)) = toInt32 (leValue (int32Bytes (toInt32 n))) := by
    simp only [int32Bytes, readInt32, leValue, List.getD_cons_zero, List.getD_cons_succ]
    congr 1
    omega
  rw [e, hv, toInt32_of_lt n h]

theorem ensureConnected_of_connected (env : Env) (c : Client)
    (h : c.sock = SocketState.ConnectedState) : ensureConnected env c = (true, c) := by
  simp [ensureConnected, h]

theorem ensureConnected_of_not (env : Env) (c : Client)
    (h : c.sock ≠ SocketState.ConnectedState) : ensureConnected env c = connectToServer env c := by
  simp [ensureConnected, h]

/-- C3. When the socket is not connected at the call and `connectToServer` fails,
`runMacro` returns the literal `"(error)\r\nDisconnected"`, whatever the wait
budget, and has called `socket.write` not once. -/
theorem runMacro_not_connected (env : Env) (fuel : Nat) (macroCode : String) (c : Client)
    (hsock : c.sock ≠ SocketState.ConnectedState) (hconn : (connectToServer env c).1 = false) :
    (runMacro env fuel macroCode c).1 = some "(error)\r\nDisconnected"
    ∧ writes (runMacro env fuel macroCode c).2.log = writes c.log
    ∧ bytesWritten (runMacro env fuel macroCode c).2.log = bytesWritten c.log := by
  have e : runMacroOutcome env fuel macroCode c
      = (Outcome.disconnected, (connectToServer env c).2) := by
    simp [runMacroOutcome, ensureConnected, hsock, hconn]
  simp only [runMacro, bytesWritten, e, connectToServer_writes]
  exact ⟨rfl, trivial, trivial⟩

/-- C3 on a new client whose host process fails to start. -/
theorem runMacro_not_connected_witness :
    (runMacro idleEnv 0 "1+1" freshClient).1 = some "(error)\r\nDisconnected"
    ∧ writes (runMacro idleEnv 0 "1+1" freshClient).2.log = []
    ∧ bytesWritten (runMacro idleEnv 0 "1+1" freshClient).2.log = [] :=
  runMacro_not_connected idleEnv 0 "1+1" freshClient (by decide) (by decide)

/-- C1. Whenever `runMacro` gets past its connection check, the socket is connected
when it writes, and over the whole call it makes exactly two `socket.write`
calls: four bytes whose little-endian value is the byte count of the UTF-8
encoding of the text, then that encoding; so the bytes handed over are those four
followed by the encoding and nothing else. -/
theorem runMacro_writes (env : Env) (fuel : Nat) (macroCode : String) (c : Client)
    (hconn : (ensureConnected env c).1 = true) (hsize : (toUtf8 macroCode).length < 2 ^ 31) :
    (ensureConnected env c).2.sock = SocketState.ConnectedState
    ∧ ∃ pre : List Byte, pre.length = 4 ∧ leValue pre = (toUtf8 macroCode).length
      ∧ writes (runMacro env fuel macroCode c).2.log = writes c.log ++ [pre, toUtf8 macroCode]
      ∧ bytesWritten (runMacro env fuel macroCode c).2.log
          = bytesWritten c.log ++ (pre ++ toUtf8 macroCode) := by
  have hs : (ensureConnected env c).2.sock = SocketState.ConnectedState := by
    by_cases h : c.sock = SocketState.ConnectedState
    · rw [ensureConnected_of_connected env c h]; exact h
    · rw [ensureConnected_of_not env c h] at hconn ⊢
      exact connectToServer_true env c hconn
  have hw : writes (ensureConnected env c).2.log = writes c.log := by
    by_cases h : c.sock = SocketState.ConnectedState
    · rw [ensureConnected_of_connected env c h]
    · rw [ensureConnected_of_not env c h]
      exact connectToServer_writes env c
  have hl := leValue_int32Bytes _ hsize
  refine ⟨hs, int32Bytes (toInt32 (toUtf8 macroCode).length), hl.2, hl.1, ?_⟩
  have e : (runMacro env fuel macroCode c).2.log =
      (ensureConnected env c).2.log
        ++ [Action.write (int32Bytes (toInt32 (toUtf8 macroCode).length)),
          Action.write (toUtf8 macroCode)] := by
    simp only [runMacro, runMacroOutcome, hconn]
    exact exchange_log env fuel macroCode _
  have hw2 : writes (runMacro env fuel macroCode c).2.log
      = writes c.log ++ [int32Bytes (toInt32 (toUtf8 macroCode).length), toUtf8 macroCode] := by
    rw [e, writes_append, hw]
    rfl
  refine ⟨hw2, ?_⟩
  simp [bytesWritten, hw2]

/-- C1 on a connected client and a text of one character and two bytes: the
length written is 2. -/
theorem runMacro_writes_witness :
    (∃ pre : List Byte, pre.length = 4 ∧ leValue pre = 2
      ∧ writes (runMacro idleEnv 0 "é" connectedClient).2.log = [pre, [0xc3, 0xa9]]
      ∧ bytesWritten (runMacro idleEnv 0 "é" connectedClient).2.log = pre ++ [0xc3, 0xa9])
    ∧ "é".length = 1 :=
  ⟨(runMacro_writes idleEnv 0 "é" connectedClient (by decide) (by decide)).2, by decide⟩

/-! ## The receive side -/

theorem sendFrame_bytes (data : List Byte) (c : Client) :
    bytesWritten ((sendFrame data c).log.drop c.log.length)
      = int32Bytes (toInt32 data.length) ++ data := by
  simp [sendFrame, socketWrite, bytesWritten, writes]

/-- The receive side on a connected socket whose buffer starts with a whole frame. -/
theorem receiveFrame_of_buffer (env : Env) (fuel : Nat) (c : Client) (p r : List Byte)
    (hN : p.length < 2 ^ 31) (hconn : c.sock = SocketState.ConnectedState)
    (hbuf : c.rbuf = int32Bytes (toInt32 p.length) ++ (p ++ r)) :
    receiveFrame env fuel c = (Outcome.response p, { c with rbuf := r }) := by
  have h4 := (leValue_int32Bytes p.length hN).2
  have hlen : ¬ c.rbuf.length < 4 := by
    rw [hbuf, List.length_append, h4]
    omega
  have e1 : prefixLoop env fuel c = (c, true) := by
    rw [prefixLoop_eq]
    exact waitLoop_skip _ _ _ _ (by simp [hlen])
  have htake : c.rbuf.take 4 = int32Bytes (toInt32 p.length) := by
    rw [hbuf, List.take_append_of_le_length (by omega), ← h4, List.take_length]
  have hdrop : c.rbuf.drop 4 = p ++ r := by
    rw [hbuf, List.drop_append_of_le_length (by omega), ← h4, List.drop_length]
    rfl
  have e2 : socketRead 4 c = (int32Bytes (toInt32 p.length), { c with rbuf := p ++ r }) := by
    simp [socketRead, htake, hdrop]
  have e3 : payloadLoop env (p.length : Int) fuel { c with rbuf := p ++ r }
      = ({ c with rbuf := p ++ r }, true) := by
    rw [payloadLoop_eq]
    exact waitLoop_skip _ _ _ _ (by simp)
  have e4 : socketRead (p.length : Int) { c with rbuf := p ++ r }
      = (p, { c with rbuf := r }) := by
    simp [socketRead]
  simp only [receiveFrame, e1, receivePayload, e2, readInt32_int32Bytes p.length hN, e3, e4]
  simp [hconn]

/-- C2. On a connected receiver whose buffer holds the bytes that the send side of
`runMacro` writes for a payload `p` of fewer than 2^31 bytes, followed by any
bytes `r`, the receive side returns without waiting, with exactly `p` as the
data; it takes exactly `4 + p.length` bytes from the buffer and leaves exactly
`r` in it. -/
theorem receiveFrame_boundary (env : Env) (fuel : Nat) (sender c : Client) (p r : List Byte)
    (hN : p.length < 2 ^ 31) (hconn : c.sock = SocketState.ConnectedState)
    (hbuf : c.rbuf = bytesWritten ((sendFrame p sender).log.drop sender.log.length) ++ r) :
    receiveFrame env fuel c = (Outcome.response p, { c with rbuf := r })
    ∧ c.rbuf.length = (4 + p.length) + r.length
    ∧ (receiveFrame env fuel c).2.rbuf = r
    ∧ (receiveFrame env fuel c).2.sock = SocketState.ConnectedState
    ∧ (receiveFrame env fuel c).2.waits = c.waits := by
  rw [sendFrame_bytes, List.append_assoc] at hbuf
  have e := receiveFrame_of_buffer env fuel c p r hN hconn hbuf
  rw [e]
  refine ⟨rfl, ?_, rfl, hconn, rfl⟩
  rw [hbuf, List.length_append, List.length_append, (leValue_int32Bytes p.length hN).2]
  omega

/-- C2 for the payload `1+1` followed by the first two bytes of a next frame. -/
theorem receiveFrame_boundary_witness :
    receiveFrame idleEnv 0
        { connectedClient with rbuf := [3, 0, 0, 0, 0x31, 0x2b, 0x31, 9, 0] }
      = (Outcome.response [0x31, 0x2b, 0x31], { connectedClient with rbuf := [9, 0] }) :=
  (receiveFrame_boundary idleEnv 0 freshClient
    { connectedClient with rbuf := [3, 0, 0, 0, 0x31, 0x2b, 0x31, 9, 0] }
    [0x31, 0x2b, 0x31] [9, 0] (by decide) rfl (by decide)).1

/-! ## The wait budget -/

/-- A loop that ended within its budget ends the same way with a larger one. -/
theorem waitLoop_mono (cond : Client → Bool) (wait : Client → Client) :
    ∀ (fuel : Nat) (c : Client), (waitLoop cond wait fuel c).2 = true →
      ∀ extra : Nat, waitLoop cond wait (fuel + extra) c = waitLoop cond wait fuel c := by
  intro fuel
  induction fuel with
  | zero =>
    intro c h extra
    rw [waitLoop_zero] at h ⊢
    split at h
    · exact absurd h (by simp)
    · rename_i hc
      rw [if_neg hc]
      exact waitLoop_skip cond wait _ c (by simpa using hc)
  | succ n ih =>
    intro c h extra
    have e : n + 1 + extra = (n + extra) + 1 := by omega
    rw [e, waitLoop_succ, waitLoop_succ]
    rw [waitLoop_succ] at h
    split
    · rename_i hc
      rw [if_pos hc] at h
      exact ih _ h extra
    · rfl

theorem receivePayload_mono (env : Env) (fuel : Nat) (c : Client)
    (h : (receivePayload env fuel c).1 ≠ Outcome.blocked) (extra : Nat) :
    receivePayload env (fuel + extra) c = receivePayload env fuel c := by
  have hw : (payloadLoop env (readInt32 (socketRead 4 c).1) fuel (socketRead 4 c).2).2 = true := by
    cases hb : (payloadLoop env (readInt32 (socketRead 4 c).1) fuel (socketRead 4 c).2).2
    · simp [receivePayload, hb] at h
    · rfl
  have e : payloadLoop env (readInt32 (socketRead 4 c).1) (fuel + extra) (socketRead 4 c).2
      = payloadLoop env (readInt32 (socketRead 4 c).1) fuel (socketRead 4 c).2 := by
    rw [payloadLoop_eq] at hw
    rw [payloadLoop_eq, payloadLoop_eq]
    exact waitLoop_mono _ _ fuel _ hw extra
  simp only [receivePayload, e]

theorem receiveFrame_mono (env : Env) (fuel : Nat) (c : Client)
    (h : (receiveFrame env fuel c).1 ≠ Outcome.blocked) (extra : Nat) :
    receiveFrame env (fuel + extra) c = receiveFrame env fuel c := by
  have hw : (prefixLoop env fuel c).2 = true := by
    cases hb : (prefixLoop env fuel c).2
    · simp [receiveFrame, hb] at h
    · rfl
  have e : prefixLoop env (fuel + extra) c = prefixLoop env fuel c := by
    rw [prefixLoop_eq] at hw
    rw [prefixLoop_eq, prefixLoop_eq]
    exact waitLoop_mono _ _ fuel _ hw extra
  simp only [receiveFrame, e, hw, Bool.not_true, Bool.false_eq_true, if_false] at h ⊢
  split
  · rfl
  · rename_i hs
    rw [if_neg hs] at h
    exact receivePayload_mono env fuel _ h extra

theorem exchange_mono (env : Env) (fuel : Nat) (macroCode : String) (c : Client)
    (h : (exchange env fuel macroCode c).1 ≠ Outcome.blocked) (extra : Nat) :
    exchange env (fuel + extra) macroCode c = exchange env fuel macroCode c := by
  simp only [exchange] at h ⊢
  split
  · rfl
  · rename_i hs
    rw [if_neg hs] at h
    have hw : (drainLoop env fuel (afterFlush env macroCode c)).2 = true := by
      cases hb : (drainLoop env fuel (afterFlush env macroCode c)).2
      · simp [hb] at h
      · rfl
    have e : drainLoop env (fuel + extra) (afterFlush env macroCode c)
        = drainLoop env fuel (afterFlush env macroCode c) := by
      rw [drainLoop_eq] at hw
      rw [drainLoop_eq, drainLoop_eq]
      exact waitLoop_mono _ _ fuel _ hw extra
    simp only [e, hw, Bool.not_true, Bool.false_eq_true, if_false] at h ⊢
    split
    · rfl
    · rename_i hs2
      rw [if_neg hs2] at h
      exact receiveFrame_mono env fuel _ h extra

/-- A call that returned within its wait budget returns the same, and leaves the
same state, with any larger budget. -/
theorem runMacro_mono (env : Env) (fuel : Nat) (macroCode : String) (c : Client)
    (h : (runMacroOutcome env fuel macroCode c).1 ≠ Outcome.blocked) (extra : Nat) :
    runMacro env (fuel + extra) macroCode c = runMacro env fuel macroCode c := by
  have e : runMacroOutcome env (fuel + extra) macroCode c = runMacroOutcome env fuel macroCode c := by
    simp only [runMacroOutcome] at h ⊢
    split
    · rfl
    · rename_i hs
      rw [if_neg hs] at h
      exact exchange_mono env fuel macroCode _ h extra
  simp only [runMacro, e]

/-! ## The end-to-end scenarios -/

/-- C5 fails as stated: in the scenario the length written for `"1+1"` is 3, not 4. -/
theorem first_call_length_is_three :
    writes (runMacro firstCallEnv 1 "1+1" freshClient).2.log
      = [[3, 0, 0, 0], [0x31, 0x2b, 0x31]]
    ∧ (toUtf8 "1+1").length = 3
    ∧ bytesWritten (runMacro firstCallEnv 1 "1+1" freshClient).2.log
      ≠ int32Bytes 4 ++ toUtf8 "1+1" := by
  decide

/-- C5, amended. On a new client, with a host that starts, a pipe that opens and a
peer that answers with the length 1 and the byte `2`, `runMacro("1+1")` starts the
host, opens the pipe named after its process id, writes the length 3 and the
three bytes of `1+1`, and returns `"2"`, leaving nothing unread, for every wait
budget of at least one iteration; the same holds, with a budget of two, when the
pipe opens only at the second attempt and the bytes move in smaller pieces. -/
theorem runMacro_first_call :
    ((runMacro firstCallEnv 1 "1+1" freshClient).1 = some "2"
      ∧ (runMacro firstCallEnv 1 "1+1" freshClient).2.log
        = [Action.start, Action.openPipe "QtVSTest_4242", Action.write [3, 0, 0, 0],
           Action.write [0x31, 0x2b, 0x31]]
      ∧ bytesWritten (runMacro firstCallEnv 1 "1+1" freshClient).2.log
        = [3, 0, 0, 0, 0x31, 0x2b, 0x31]
      ∧ (runMacro firstCallEnv 1 "1+1" freshClient).2.rbuf = []
      ∧ (runMacro firstCallEnv 1 "1+1" freshClient).2.proc = ProcessState.Running
      ∧ (runMacro firstCallEnv 1 "1+1" freshClient).2.sock = SocketState.ConnectedState)
    ∧ (∀ extra : Nat, runMacro firstCallEnv (1 + extra) "1+1" freshClient
        = runMacro firstCallEnv 1 "1+1" freshClient)
    ∧ ((runMacro slowCallEnv 2 "1+1" freshClient).1 = some "2"
      ∧ (runMacro slowCallEnv 2 "1+1" freshClient).2.log
        = [Action.start, Action.openPipe "QtVSTest_77", Action.abort,
           Action.openPipe "QtVSTest_77", Action.write [3, 0, 0, 0],
           Action.write [0x31, 0x2b, 0x31]]
      ∧ (runMacro slowCallEnv 2 "1+1" freshClient).2.rbuf = []
      ∧ (runMacro slowCallEnv 2 "1+1" freshClient).2.waits = 3)
    ∧ (∀ extra : Nat, runMacro slowCallEnv (2 + extra) "1+1" freshClient
        = runMacro slowCallEnv 2 "1+1" freshClient) := by
  refine ⟨by decide, ?_, by decide, ?_⟩
  · intro extra
    exact runMacro_mono firstCallEnv 1 "1+1" freshClient (by decide) extra
  · intro extra
    exact runMacro_mono slowCallEnv 2 "1+1" freshClient (by decide) extra

/-! ## The four state checks -/

/-- An exchange that ends in the final `return` saw the socket connected at each
of its four checks. -/
theorem exchange_checks (env : Env) (fuel : Nat) (macroCode : String) (c : Client)
    (data : List Byte) (h : (exchange env fuel macroCode c).1 = Outcome.response data) :
    (afterFlush env macroCode c).sock = SocketState.ConnectedState
    ∧ (drainLoop env fuel (afterFlush env macroCode c)).1.sock = SocketState.ConnectedState
    ∧ (prefixLoop env fuel (drainLoop env fuel (afterFlush env macroCode c)).1).1.sock
        = SocketState.ConnectedState
    ∧ (payloadLoop env
        (readInt32 (socketRead 4 (prefixLoop env fuel
          (drainLoop env fuel (afterFlush env macroCode c)).1).1).1)
        fuel
        (socketRead 4 (prefixLoop env fuel
          (drainLoop env fuel (afterFlush env macroCode c)).1).1).2).1.sock
        = SocketState.ConnectedState
    ∧ data = (socketRead
        (readInt32 (socketRead 4 (prefixLoop env fuel
          (drainLoop env fuel (afterFlush env macroCode c)).1).1).1)
        (payloadLoop env
          (readInt32 (socketRead 4 (prefixLoop env fuel
            (drainLoop env fuel (afterFlush env macroCode c)).1).1).1)
          fuel
          (socketRead 4 (prefixLoop env fuel
            (drainLoop env fuel (afterFlush env macroCode c)).1).1).2).1).1 := by
  simp only [exchange, receiveFrame, receivePayload] at h
  split at h
  · exact absurd h (by simp)
  · split at h
    · exact absurd h (by simp)
    · split at h
      · exact absurd h (by simp)
      · split at h
        · exact absurd h (by simp)
        · split at h
          · exact absurd h (by simp)
          · split at h
            · exact absurd h (by simp)
            · split at h
              · exact absurd h (by simp)
              · rename_i h1 _ h2 _ h3 _ h4
                simp only [Outcome.response.injEq] at h
                exact ⟨of_not_not h1, of_not_not h2, of_not_not h3, of_not_not h4, h.symm⟩

/-- C10. A call that ends in the final `return QString::fromUtf8(data)` saw the
socket connected after the flush, after the write loop, after the wait for the
length and after the wait for the data.  And there is a peer for which the whole
response frame is in the read buffer while the check after the wait sees the
socket disconnected: the call returns `"(error)\r\nDisconnected"` and the frame
stays unread. -/
theorem runMacro_checks (env : Env) (fuel : Nat) (macroCode : String) (c : Client)
    (data : List Byte)
    (h : (runMacroOutcome env fuel macroCode c).1 = Outcome.response data) :
    ((afterFlush env macroCode (ensureConnected env c).2).sock = SocketState.ConnectedState
      ∧ (drainLoop env fuel (afterFlush env macroCode (ensureConnected env c).2)).1.sock
          = SocketState.ConnectedState
      ∧ (prefixLoop env fuel
          (drainLoop env fuel (afterFlush env macroCode (ensureConnected env c).2)).1).1.sock
          = SocketState.ConnectedState
      ∧ (payloadLoop env
          (readInt32 (socketRead 4 (prefixLoop env fuel
            (drainLoop env fuel (afterFlush env macroCode (ensureConnected env c).2)).1).1).1)
          fuel
          (socketRead 4 (prefixLoop env fuel
            (drainLoop env fuel (afterFlush env macroCode (ensureConnected env c).2)).1).1).2).1.sock
          = SocketState.ConnectedState)
    ∧ ((runMacro answerAndCloseEnv 1 "1+1" connectedClient).1 = some "(error)\r\nDisconnected"
      ∧ (runMacroOutcome answerAndCloseEnv 1 "1+1" connectedClient).1 = Outcome.disconnected
      ∧ (runMacro answerAndCloseEnv 1 "1+1" connectedClient).2.rbuf = [1, 0, 0, 0, 0x32]
      ∧ (receiveFrame idleEnv 0 { connectedClient with rbuf := [1, 0, 0, 0, 0x32] }).1
          = Outcome.response [0x32]) := by
  refine ⟨?_, by decide⟩
  simp only [runMacroOutcome] at h
  split at h
  · exact absurd h (by simp)
  · have hc := exchange_checks env fuel macroCode _ data h
    exact ⟨hc.1, hc.2.1, hc.2.2.1, hc.2.2.2.1⟩

/-- C10 at the first-call scenario, where the response is returned. -/
theorem runMacro_checks_witness :
    (afterFlush firstCallEnv "1+1" (ensureConnected firstCallEnv freshClient).2).sock
      = SocketState.ConnectedState :=
  (runMacro_checks firstCallEnv 1 "1+1" freshClient [0x32] (by decide)).1.1

/-! ## disconnectFromServer followed by runMacro -/

/-- The connection loop only issues `connectToServer` and `abort` on the socket. -/
theorem connectLoop_log (env : Env) (name : String) :
    ∀ (fuel elapsedUs : Nat) (c : Client),
      ∃ rest : List Action, (connectLoop env name fuel elapsedUs c).log = c.log ++ rest
        ∧ ∀ a ∈ rest, a = Action.openPipe name ∨ a = Action.abort := by
  intro fuel
  induction fuel with
  | zero =>
    intro _ c
    exact ⟨[], by simp [connectLoop], by simp⟩
  | succ n ih =>
    intro elapsedUs c
    simp only [connectLoop]
    split
    · have hl : (socketConnectToServer env name c).log = c.log ++ [Action.openPipe name] := by
        simp only [socketConnectToServer]
        split <;> [skip; split] <;> rfl
      split
      · obtain ⟨rest, h1, h2⟩ :=
          ih (elapsedUs + (env c.tick).dt + 100) (socketAbort (socketConnectToServer env name c))
        refine ⟨Action.openPipe name :: Action.abort :: rest, ?_, ?_⟩
        · rw [h1]
          simp [socketAbort, hl]
        · intro a ha
          simp only [List.mem_cons] at ha
          rcases ha with ha | ha | ha
          · exact Or.inl ha
          · exact Or.inr ha
          · exact h2 a ha
      · obtain ⟨rest, h1, h2⟩ :=
          ih (elapsedUs + (env c.tick).dt) (socketConnectToServer env name c)
        refine ⟨Action.openPipe name :: rest, ?_, ?_⟩
        · rw [h1, hl]
          simp
        · intro a ha
          simp only [List.mem_cons] at ha
          rcases ha with ha | ha
          · exact Or.inl ha
          · exact h2 a ha
    · exact ⟨[], by simp, by simp⟩

/-- On a socket that is not connected, with the timer just started, the loop makes
at least one attempt. -/
theorem connectLoop_first (env : Env) (name : String) (fuel : Nat) (c : Client)
    (h : c.sock ≠ SocketState.ConnectedState) :
    ∃ rest : List Action,
      (connectLoop env name (fuel + 1) 0 c).log = c.log ++ Action.openPipe name :: rest
        ∧ ∀ a ∈ rest, a = Action.openPipe name ∨ a = Action.abort := by
  have hl : (socketConnectToServer env name c).log = c.log ++ [Action.openPipe name] := by
    simp only [socketConnectToServer]
    split <;> [skip; split] <;> rfl
  have he : hasExpired 0 = false := by decide
  have hcond : (!hasExpired 0 && decide (c.sock ≠ SocketState.ConnectedState)) = true := by
    simp [he, h]
  simp only [connectLoop]
  rw [if_pos hcond]
  split
  · obtain ⟨rest, h1, h2⟩ := connectLoop_log env name fuel (0 + (env c.tick).dt + 100)
      (socketAbort (socketConnectToServer env name c))
    refine ⟨Action.abort :: rest, ?_, ?_⟩
    · rw [h1]
      simp [socketAbort, hl]
    · intro a ha
      simp only [List.mem_cons] at ha
      rcases ha with ha | ha
      · exact Or.inr ha
      · exact h2 a ha
  · obtain ⟨rest, h1, h2⟩ := connectLoop_log env name fuel (0 + (env c.tick).dt)
      (socketConnectToServer env name c)
    exact ⟨rest, by rw [h1, hl]; simp, h2⟩

theorem connectLoop_attempts (env : Env) (name : String) (c : Client)
    (h : c.sock ≠ SocketState.ConnectedState) :
    ∃ rest : List Action,
      (connectLoop env name connectBudget 0 c).log = c.log ++ Action.openPipe name :: rest
        ∧ ∀ a ∈ rest, a = Action.openPipe name ∨ a = Action.abort :=
  connectLoop_first env name 300010 c h

theorem disconnectFromServer_keep (env : Env) (c : Client)
    (hp : c.proc = ProcessState.Running) :
    disconnectFromServer env false c =
      (true, if c.sock = SocketState.ConnectedState then socketDisconnectFromServer c else c) := by
  simp [disconnectFromServer, hp]

theorem disconnectFromServer_stopped (env : Env) (closeVs : Bool) (c : Client)
    (hp : c.proc ≠ ProcessState.Running) : disconnectFromServer env closeVs c = (true, c) := by
  simp [disconnectFromServer, hp]

theorem socketDisconnectFromServer_fields (c : Client) :
    (socketDisconnectFromServer c).sock ≠ SocketState.ConnectedState
    ∧ (socketDisconnectFromServer c).proc = c.proc
    ∧ (socketDisconnectFromServer c).pid = c.pid := by
  unfold socketDisconnectFromServer
  split <;> simp

/-- C7 fails as stated: on the client left by a successful connect and a
successful `terminateServerProcess`, `disconnectFromServer(false)` returns true
without touching the socket, and the `runMacro` that follows issues nothing but
its two writes, on the connection that was there before. -/
theorem stale_connection_reused :
    disconnectFromServer hostGoneEnv false orphanedClient = (true, orphanedClient)
    ∧ orphanedClient.sock = SocketState.ConnectedState
    ∧ (runMacro hostGoneEnv 0 "1+1"
        (disconnectFromServer hostGoneEnv false orphanedClient).2).2.log.drop
          orphanedClient.log.length
      = [Action.write [3, 0, 0, 0], Action.write [0x31, 0x2b, 0x31]] := by
  decide

/-- C7, amended. When the host process is running, or the channel is not
connected, at the call of `disconnectFromServer(false)`: the call returns true and
leaves the socket not connected; the `runMacro` that follows is `connectToServer`
followed, only when that returned true (so with the socket connected again), by
the exchange; `connectToServer` writes nothing; with the host running it issues
no `start` and begins with an attempt to open the pipe named after the process
id; with the host not running it begins with `start`. -/
theorem runMacro_after_disconnect (env : Env) (fuel : Nat) (macroCode : String) (c c1 : Client)
    (hc1 : c1 = (disconnectFromServer env false c).2)
    (h : c.proc = ProcessState.Running ∨ c.sock ≠ SocketState.ConnectedState) :
    (disconnectFromServer env false c).1 = true
    ∧ c1.sock ≠ SocketState.ConnectedState
    ∧ runMacroOutcome env fuel macroCode c1 =
        (if (connectToServer env c1).1 then exchange env fuel macroCode (connectToServer env c1).2
         else (Outcome.disconnected, (connectToServer env c1).2))
    ∧ ((connectToServer env c1).1 = true →
        (connectToServer env c1).2.sock = SocketState.ConnectedState)
    ∧ writes (connectToServer env c1).2.log = writes c1.log
    ∧ (c.proc = ProcessState.Running →
        ∃ rest : List Action,
          (connectToServer env c1).2.log = c1.log ++ Action.openPipe (pipeName c.pid) :: rest
          ∧ ∀ a ∈ rest, a = Action.openPipe (pipeName c.pid) ∨ a = Action.abort)
    ∧ (c.proc ≠ ProcessState.Running →
        ∃ rest : List Action, (connectToServer env c1).2.log = c1.log ++ Action.start :: rest) := by
  have hsock : c1.sock ≠ SocketState.ConnectedState := by
    rw [hc1]
    by_cases hp : c.proc = ProcessState.Running
    · rw [disconnectFromServer_keep env c hp]
      by_cases hs : c.sock = SocketState.ConnectedState
      · simp only [hs, if_true]
        exact (socketDisconnectFromServer_fields c).1
      · simp only [hs, if_false]
        exact hs
    · rw [disconnectFromServer_stopped env false c hp]
      rcases h with h | h
      · exact absurd h hp
      · exact h
  have hret : (disconnectFromServer env false c).1 = true := by
    by_cases hp : c.proc = ProcessState.Running
    · rw [disconnectFromServer_keep env c hp]
    · rw [disconnectFromServer_stopped env false c hp]
  refine ⟨hret, hsock, ?_, connectToServer_true env c1, connectToServer_writes env c1, ?_, ?_⟩
  · simp only [runMacroOutcome, ensureConnected_of_not env c1 hsock]
    cases (connectToServer env c1).1 <;> simp
  · intro hp
    have hp1 : c1.proc = ProcessState.Running ∧ c1.pid = c.pid := by
      rw [hc1, disconnectFromServer_keep env c hp]
      by_cases hs : c.sock = SocketState.ConnectedState
      · simp only [hs, if_true]
        exact ⟨(socketDisconnectFromServer_fields c).2.1.trans hp,
          (socketDisconnectFromServer_fields c).2.2⟩
      · simp only [hs, if_false]
        exact ⟨hp, trivial⟩
    rw [connectToServer_running env c1 hp1.1, hp1.2]
    exact connectLoop_attempts env (pipeName c.pid) c1 hsock
  · intro hp
    have e : c1 = c := by
      rw [hc1, disconnectFromServer_stopped env false c hp]
    rw [e]
    have hst : ∃ r0 : List Action,
        (waitForStarted env (processStart c)).2.log = c.log ++ Action.start :: r0 := by
      refine ⟨[], ?_⟩
      simp only [waitForStarted, processStart]
      split <;> [skip; skip; split] <;> rfl
    obtain ⟨r0, hr0⟩ := hst
    rcases connectToServer_cases env c with ⟨hr, _⟩ | ⟨_, _, e2⟩ | ⟨_, _, e2⟩
    · exact absurd hr hp
    · rw [e2]
      exact ⟨r0, hr0⟩
    · rw [e2]
      obtain ⟨rest, h1, _⟩ := connectLoop_log env
        (pipeName (waitForStarted env (processStart c)).2.pid) connectBudget 0
        (waitForStarted env (processStart c)).2
      refine ⟨r0 ++ rest, ?_⟩
      show (connectLoop env _ connectBudget 0 _).log = _
      rw [h1, hr0]
      simp

/-- C7, amended, at a connected client with a running host whose pipe opens
again at once. -/
theorem runMacro_after_disconnect_witness :
    (disconnectFromServer (fun _ => { opened := true }) false connectedClient).2.sock
      ≠ SocketState.ConnectedState :=
  (runMacro_after_disconnect (fun _ => { opened := true }) 0 "1+1" connectedClient _ rfl
    (Or.inl rfl)).2.1

/-! ## A channel that closes -/

theorem socketWait_budget (env : Env) (D T0 W0 : Nat) (hdrop : (env D).drop = true)
    (c : Client) (h : WaitBudget D T0 W0 c) (hs : c.sock = SocketState.ConnectedState) :
    WaitBudget D T0 W0 (socketWait env c) := by
  obtain ⟨h1, _, h3, h4⟩ := h
  have h3' := h3 hs
  refine ⟨?_, ?_, ?_, ?_⟩
  · show T0 ≤ c.tick + 1
    omega
  · show c.tick + 1 ≤ D + 1
    omega
  · intro hc
    show c.tick + 1 ≤ D
    by_cases e : c.tick = D
    · have hd : (env c.tick).drop = true := by rw [e]; exact hdrop
      simp [socketWait, hd] at hc
    · omega
  · show c.waits + 1 + T0 = W0 + (c.tick + 1)
    omega

theorem waitLoop_budget (env : Env) (D T0 W0 : Nat) (hdrop : (env D).drop = true)
    (cond : Client → Bool) (fuel : Nat) (c : Client) (h : WaitBudget D T0 W0 c) :
    WaitBudget D T0 W0 (waitLoop cond (socketWait env) fuel c).1 :=
  waitLoop_inv (WaitBudget D T0 W0) cond (socketWait env)
    (fun c' h' hs _ => socketWait_budget env D T0 W0 hdrop c' h' hs) fuel c h

/-- A wait loop ends within the calls that remain until the channel closes. -/
theorem waitLoop_returns (env : Env) (D T0 W0 : Nat) (hdrop : (env D).drop = true)
    (cond : Client → Bool) :
    ∀ (fuel : Nat) (c : Client), WaitBudget D T0 W0 c → D + 1 ≤ c.tick + fuel →
      (waitLoop cond (socketWait env) fuel c).2 = true := by
  intro fuel
  induction fuel with
  | zero =>
    intro c h hf
    rw [waitLoop_zero]
    split
    · rename_i hc
      simp only [Bool.and_eq_true, decide_eq_true_eq] at hc
      have := h.2.2.1 hc.1
      omega
    · rfl
  | succ n ih =>
    intro c h hf
    rw [waitLoop_succ]
    split
    · rename_i hc
      simp only [Bool.and_eq_true, decide_eq_true_eq] at hc
      apply ih _ (socketWait_budget env D T0 W0 hdrop c h hc.1)
      show D + 1 ≤ c.tick + 1 + n
      omega
    · rfl

theorem socketRead_budget (D T0 W0 : Nat) (maxSize : Int) (c : Client)
    (h : WaitBudget D T0 W0 c) : WaitBudget D T0 W0 (socketRead maxSize c).2 := by
  unfold socketRead
  split <;> exact h

/-- When the channel closes during the `(k+1)`-th wait after the flush, the
exchange ends with a budget of `k + 1` iterations, after at most `k + 1` waits. -/
theorem exchange_returns (env : Env) (fuel : Nat) (macroCode : String) (c : Client) (k : Nat)
    (hdrop : (env (c.tick + 1 + k)).drop = true) (hfuel : k + 1 ≤ fuel) :
    (exchange env fuel macroCode c).1 ≠ Outcome.blocked
    ∧ (exchange env fuel macroCode c).2.waits ≤ c.waits + (k + 1) := by
  have hb1 : WaitBudget (c.tick + 1 + k) (c.tick + 1) c.waits (afterFlush env macroCode c) := by
    refine ⟨?_, ?_, ?_, ?_⟩
    · show c.tick + 1 ≤ c.tick + 1
      omega
    · show c.tick + 1 ≤ c.tick + 1 + k + 1
      omega
    · intro _
      show c.tick + 1 ≤ c.tick + 1 + k
      omega
    · show c.waits + (c.tick + 1) = c.waits + (c.tick + 1)
      rfl
  have key : ∀ c' : Client, WaitBudget (c.tick + 1 + k) (c.tick + 1) c.waits c' →
      c'.waits ≤ c.waits + (k + 1) := by
    intro c' h
    obtain ⟨_, h2, _, h4⟩ := h
    omega
  have fuelOk : ∀ c' : Client, WaitBudget (c.tick + 1 + k) (c.tick + 1) c.waits c' →
      c.tick + 1 + k + 1 ≤ c'.tick + fuel := by
    intro c' h
    have := h.1
    omega
  have hb2 := waitLoop_budget env _ _ _ hdrop (fun c => decide (c.bytesToWrite ≠ 0)) fuel _ hb1
  have hr2 := waitLoop_returns env _ _ _ hdrop (fun c => decide (c.bytesToWrite ≠ 0)) fuel _ hb1
    (fuelOk _ hb1)
  rw [← drainLoop_eq] at hb2 hr2
  have hb3 := waitLoop_budget env _ _ _ hdrop (fun c => decide (c.rbuf.length < 4)) fuel _ hb2
  have hr3 := waitLoop_returns env _ _ _ hdrop (fun c => decide (c.rbuf.length < 4)) fuel _ hb2
    (fuelOk _ hb2)
  rw [← prefixLoop_eq] at hb3 hr3
  have hb3' := socketRead_budget _ _ _ 4 _ hb3
  have hb4 := waitLoop_budget env _ _ _ hdrop
    (fun c' => decide ((c'.rbuf.length : Int) < readInt32 (socketRead 4 (prefixLoop env fuel
      (drainLoop env fuel (afterFlush env macroCode c)).1).1).1)) fuel _ hb3'
  have hr4 := waitLoop_returns env _ _ _ hdrop
    (fun c' => decide ((c'.rbuf.length : Int) < readInt32 (socketRead 4 (prefixLoop env fuel
      (drainLoop env fuel (afterFlush env macroCode c)).1).1).1)) fuel _ hb3' (fuelOk _ hb3')
  rw [← payloadLoop_eq] at hb4 hr4
  have hb5 := socketRead_budget _ _ _
    (readInt32 (socketRead 4 (prefixLoop env fuel
      (drainLoop env fuel (afterFlush env macroCode c)).1).1).1) _ hb4
  simp only [exchange, receiveFrame, receivePayload, hr2, hr3, hr4, Bool.not_true,
    Bool.false_eq_true, if_false]
  split
  · exact ⟨by simp, key _ hb1⟩
  · split
    · exact ⟨by simp, key _ hb2⟩
    · split
      · exact ⟨by simp, key _ hb3⟩
      · split
        · exact ⟨by simp, key _ hb4⟩
        · exact ⟨by simp, key _ hb5⟩

/-! ## A response cut short -/

theorem socketWait_pending (env : Env) (D : Nat) (x : List Byte) (hdrop : (env D).drop = true)
    (c : Client) (h : Pending env D x c) (hs : c.sock = SocketState.ConnectedState) :
    Pending env D x (socketWait env c) := by
  intro hc
  obtain ⟨h1, h2⟩ := h hs
  have hne : c.tick ≠ D := by
    intro e
    have hd : (env c.tick).drop = true := by rw [e]; exact hdrop
    simp [socketWait, hd] at hc
  refine ⟨?_, ?_⟩
  · show c.tick + 1 ≤ D
    omega
  · show (c.rbuf ++ (env c.tick).recv) ++ recvBytes env (c.tick + 1) (D + 1 - (c.tick + 1)) = x
    have e : D + 1 - c.tick = (D + 1 - (c.tick + 1)) + 1 := by omega
    rw [e, recvBytes] at h2
    rw [List.append_assoc]
    exact h2

theorem waitLoop_pending (env : Env) (D : Nat) (x : List Byte) (hdrop : (env D).drop = true)
    (cond : Client → Bool) (fuel : Nat) (c : Client) (h : Pending env D x c) :
    Pending env D x (waitLoop cond (socketWait env) fuel c).1 :=
  waitLoop_inv (Pending env D x) cond (socketWait env)
    (fun c' h' hs _ => socketWait_pending env D x hdrop c' h' hs) fuel c h

theorem readInt32_of_leValue (pre : List Byte) (N : Nat) (hlen : pre.length = 4)
    (hval : leValue pre = N) (hN : N < 2 ^ 31) : readInt32 pre = (N : Int) := by
  match pre, hlen with
  | [a, b, c, d], _ =>
    have e : readInt32 [a, b, c, d] = toInt32 (leValue [a, b, c, d]) := by
      simp only [readInt32, leValue, List.getD_cons_zero, List.getD_cons_succ]
      congr 1
      omega
    rw [e, hval, toInt32_of_lt N hN]

/-- The wait for the data ends disconnected when fewer bytes than awaited can
arrive before the channel closes. -/
theorem payloadLoop_partial (env : Env) (D T0 W0 fuel : Nat) (q : List Byte) (size : Int)
    (hdrop : (env D).drop = true) (hq : (q.length : Int) < size) (c : Client)
    (hp : Pending env D q c) (hb : WaitBudget D T0 W0 c) (hf : D + 1 ≤ T0 + fuel) :
    (payloadLoop env size fuel c).2 = true
    ∧ (payloadLoop env size fuel c).1.sock ≠ SocketState.ConnectedState := by
  have hr : (payloadLoop env size fuel c).2 = true := by
    rw [payloadLoop_eq]
    exact waitLoop_returns env D T0 W0 hdrop _ fuel c hb (by have := hb.1; omega)
  refine ⟨hr, ?_⟩
  intro hs
  have hp' : Pending env D q (payloadLoop env size fuel c).1 := by
    rw [payloadLoop_eq]
    exact waitLoop_pending env D q hdrop _ fuel c hp
  have hx := waitLoop_exit (fun c => decide ((c.rbuf.length : Int) < size)) (socketWait env)
    fuel c (by rw [← payloadLoop_eq]; exact hr) (by rw [← payloadLoop_eq]; exact hs)
  rw [← payloadLoop_eq] at hx
  simp only [decide_eq_false_iff_not, not_lt] at hx
  obtain ⟨_, h2⟩ := hp' hs
  have hl := congrArg List.length h2
  rw [List.length_append] at hl
  omega

theorem receivePayload_partial (env : Env) (D T0 W0 fuel N : Nat) (pre q : List Byte)
    (hdrop : (env D).drop = true) (hlen : pre.length = 4) (hval : leValue pre = N)
    (hN : N < 2 ^ 31) (hq : q.length < N) (c : Client)
    (hs : c.sock = SocketState.ConnectedState) (h4 : ¬ c.rbuf.length < 4)
    (hp : Pending env D (pre ++ q) c) (hb : WaitBudget D T0 W0 c) (hf : D + 1 ≤ T0 + fuel) :
    (receivePayload env fuel c).1 = Outcome.disconnected := by
  obtain ⟨h1, h2⟩ := hp hs
  have htake : c.rbuf.take 4 = pre := by
    have e := congrArg (List.take 4) h2
    rw [List.take_append_of_le_length (by omega), List.take_left' hlen] at e
    exact e
  have hdropb : c.rbuf.drop 4 ++ recvBytes env c.tick (D + 1 - c.tick) = q := by
    have e := congrArg (List.drop 4) h2
    rw [List.drop_append_of_le_length (by omega), List.drop_left' hlen] at e
    exact e
  have e2 : socketRead 4 c = (pre, { c with rbuf := c.rbuf.drop 4 }) := by
    simp [socketRead, htake]
  have hp2 : Pending env D q { c with rbuf := c.rbuf.drop 4 } := fun _ => ⟨h1, hdropb⟩
  have hb2 : WaitBudget D T0 W0 { c with rbuf := c.rbuf.drop 4 } := hb
  have hsz := readInt32_of_leValue pre N hlen hval hN
  have hl := payloadLoop_partial env D T0 W0 fuel q (N : Int) hdrop (by omega) _ hp2 hb2 hf
  simp only [receivePayload, e2, hsz, hl.1, Bool.not_true, Bool.false_eq_true, if_false]
  rw [if_pos hl.2]

theorem receiveFrame_partial (env : Env) (D T0 W0 fuel N : Nat) (pre q : List Byte)
    (hdrop : (env D).drop = true) (hlen : pre.length = 4) (hval : leValue pre = N)
    (hN : N < 2 ^ 31) (hq : q.length < N) (c : Client)
    (hp : Pending env D (pre ++ q) c) (hb : WaitBudget D T0 W0 c) (hf : D + 1 ≤ T0 + fuel) :
    (receiveFrame env fuel c).1 = Outcome.disconnected := by
  have hr : (prefixLoop env fuel c).2 = true := by
    rw [prefixLoop_eq]
    exact waitLoop_returns env D T0 W0 hdrop _ fuel c hb (by have := hb.1; omega)
  have hp' : Pending env D (pre ++ q) (prefixLoop env fuel c).1 := by
    rw [prefixLoop_eq]
    exact waitLoop_pending env D _ hdrop _ fuel c hp
  have hb' : WaitBudget D T0 W0 (prefixLoop env fuel c).1 := by
    rw [prefixLoop_eq]
    exact waitLoop_budget env D T0 W0 hdrop _ fuel c hb
  simp only [receiveFrame, hr, Bool.not_true, Bool.false_eq_true, if_false]
  split
  · rfl
  · rename_i hs
    have hs' := of_not_not hs
    have hx := waitLoop_exit (fun c => decide (c.rbuf.length < 4)) (socketWait env)
      fuel c (by rw [← prefixLoop_eq]; exact hr) (by rw [← prefixLoop_eq]; exact hs')
    rw [← prefixLoop_eq] at hx
    simp only [decide_eq_false_iff_not] at hx
    exact receivePayload_partial env D T0 W0 fuel N pre q hdrop hlen hval hN hq _ hs' hx hp' hb' hf

theorem exchange_partial (env : Env) (fuel N k : Nat) (macroCode : String) (pre q : List Byte)
    (c : Client) (hlen : pre.length = 4) (hval : leValue pre = N) (hN : N < 2 ^ 31)
    (hq : q.length < N)
    (hrecv : c.rbuf ++ recvBytes env (c.tick + 1) (k + 1) = pre ++ q)
    (hdrop : (env (c.tick + 1 + k)).drop = true) (hfuel : k + 1 ≤ fuel) :
    (exchange env fuel macroCode c).1 = Outcome.disconnected := by
  have hb1 : WaitBudget (c.tick + 1 + k) (c.tick + 1) c.waits (afterFlush env macroCode c) := by
    refine ⟨?_, ?_, ?_, ?_⟩
    · show c.tick + 1 ≤ c.tick + 1
      omega
    · show c.tick + 1 ≤ c.tick + 1 + k + 1
      omega
    · intro _
      show c.tick + 1 ≤ c.tick + 1 + k
      omega
    · show c.waits + (c.tick + 1) = c.waits + (c.tick + 1)
      rfl
  have hp1 : Pending env (c.tick + 1 + k) (pre ++ q) (afterFlush env macroCode c) := by
    intro _
    refine ⟨?_, ?_⟩
    · show c.tick + 1 ≤ c.tick + 1 + k
      omega
    · show c.rbuf ++ recvBytes env (c.tick + 1) (c.tick + 1 + k + 1 - (c.tick + 1)) = pre ++ q
      have e : c.tick + 1 + k + 1 - (c.tick + 1) = k + 1 := by omega
      rw [e]
      exact hrecv
  have hf : c.tick + 1 + k + 1 ≤ c.tick + 1 + fuel := by omega
  have hr : (drainLoop env fuel (afterFlush env macroCode c)).2 = true := by
    rw [drainLoop_eq]
    exact waitLoop_returns env _ _ _ hdrop _ fuel _ hb1 (by have := hb1.1; omega)
  have hp2 : Pending env (c.tick + 1 + k) (pre ++ q)
      (drainLoop env fuel (afterFlush env macroCode c)).1 := by
    rw [drainLoop_eq]
    exact waitLoop_pending env _ _ hdrop _ fuel _ hp1
  have hb2 : WaitBudget (c.tick + 1 + k) (c.tick + 1) c.waits
      (drainLoop env fuel (afterFlush env macroCode c)).1 := by
    rw [drainLoop_eq]
    exact waitLoop_budget env _ _ _ hdrop _ fuel _ hb1
  simp only [exchange, hr, Bool.not_true, Bool.false_eq_true, if_false]
  split
  · rfl
  · split
    · rfl
    · exact receiveFrame_partial env _ _ _ fuel N pre q hdrop hlen hval hN hq _ hp2 hb2 hf

/-- C4. On a connected client, when everything that arrives from the peer up to
the moment the channel closes is the four bytes of a length `N` and fewer than
`N` bytes of data (none at all in the case of the claim), `runMacro` returns
`"(error)\r\nDisconnected"` through one of its disconnection returns, never
through the final return of decoded data, given a budget that covers the waits
up to the close. -/
theorem runMacro_partial_response (env : Env) (fuel N k : Nat) (macroCode : String)
    (pre q : List Byte) (c : Client)
    (hconn : c.sock = SocketState.ConnectedState)
    (hlen : pre.length = 4) (hval : leValue pre = N) (hN : N < 2 ^ 31) (hq : q.length < N)
    (hrecv : c.rbuf ++ recvBytes env (c.tick + 1) (k + 1) = pre ++ q)
    (hdrop : (env (c.tick + 1 + k)).drop = true) (hfuel : k + 1 ≤ fuel) :
    (runMacroOutcome env fuel macroCode c).1 = Outcome.disconnected
    ∧ (runMacro env fuel macroCode c).1 = some "(error)\r\nDisconnected" := by
  have e : (runMacroOutcome env fuel macroCode c).1 = Outcome.disconnected := by
    simp only [runMacroOutcome, ensureConnected_of_connected env c hconn, Bool.not_true,
      Bool.false_eq_true, if_false]
    exact exchange_partial env fuel N k macroCode pre q c hlen hval hN hq hrecv hdrop hfuel
  refine ⟨e, ?_⟩
  simp only [runMacro, e]
  rfl

/-- C4 in the case of the claim: the peer sends the length 5 and closes. -/
theorem runMacro_partial_response_witness :
    (runMacroOutcome lengthThenCloseEnv 2 "1+1" connectedClient).1 = Outcome.disconnected
    ∧ (runMacro lengthThenCloseEnv 2 "1+1" connectedClient).1 = some "(error)\r\nDisconnected" :=
  runMacro_partial_response lengthThenCloseEnv 2 5 1 "1+1" [5, 0, 0, 0] [] connectedClient
    rfl rfl (by decide) (by decide) (by decide) (by decide) rfl (by decide)

/-! ## How long runMacro waits -/

theorem silent_waitLoop (cond : Client → Bool) :
    ∀ (fuel : Nat) (c : Client), c.sock = SocketState.ConnectedState →
      (∀ c' : Client, c'.rbuf = c.rbuf → cond c' = true) →
      (waitLoop cond (socketWait silentPeerEnv) fuel c).2 = false
      ∧ (waitLoop cond (socketWait silentPeerEnv) fuel c).1.waits = c.waits + fuel := by
  intro fuel
  induction fuel with
  | zero =>
    intro c hs hc
    rw [waitLoop_zero]
    simp [hs, hc c rfl]
  | succ n ih =>
    intro c hs hc
    rw [waitLoop_succ]
    simp only [hs, hc c rfl, decide_True, Bool.and_self, if_true]
    have hs' : (socketWait silentPeerEnv c).sock = SocketState.ConnectedState := by
      simp [socketWait, silentPeerEnv, hs]
    have hr' : (socketWait silentPeerEnv c).rbuf = c.rbuf := by
      simp [socketWait, silentPeerEnv]
    obtain ⟨h1, h2⟩ := ih (socketWait silentPeerEnv c) hs' (fun c' h' => hc c' (h'.trans hr'))
    refine ⟨h1, ?_⟩
    rw [h2]
    show c.waits + 1 + n = c.waits + (n + 1)
    omega

/-- C6 fails as stated: with a peer that keeps the channel open and sends nothing,
`runMacro` is still waiting after any number of waits, so no bound on the number
of waits holds for all peers. -/
theorem runMacro_waits_unbounded :
    (∀ fuel : Nat,
      (runMacro silentPeerEnv fuel "1+1" connectedClient).1 = none
      ∧ (runMacro silentPeerEnv fuel "1+1" connectedClient).2.waits = fuel)
    ∧ ¬ ∃ B : Nat, ∀ (env : Env) (fuel : Nat) (macroCode : String) (c : Client),
        (runMacro env fuel macroCode c).2.waits ≤ c.waits + B := by
  have main : ∀ fuel : Nat,
      (runMacro silentPeerEnv fuel "1+1" connectedClient).1 = none
      ∧ (runMacro silentPeerEnv fuel "1+1" connectedClient).2.waits = fuel := by
    intro fuel
    have hs1 : (afterFlush silentPeerEnv "1+1" connectedClient).sock
        = SocketState.ConnectedState := by decide
    have hw1 : (afterFlush silentPeerEnv "1+1" connectedClient).bytesToWrite = 0 := by decide
    have hr1 : (afterFlush silentPeerEnv "1+1" connectedClient).rbuf = [] := by decide
    have hq1 : (afterFlush silentPeerEnv "1+1" connectedClient).waits = 0 := by decide
    have e1 : drainLoop silentPeerEnv fuel (afterFlush silentPeerEnv "1+1" connectedClient)
        = (afterFlush silentPeerEnv "1+1" connectedClient, true) := by
      rw [drainLoop_eq]
      exact waitLoop_skip _ _ _ _ (by simp [hw1])
    obtain ⟨h1, h2⟩ := silent_waitLoop (fun c => decide (c.rbuf.length < 4)) fuel
      (afterFlush silentPeerEnv "1+1" connectedClient) hs1
      (fun c' h' => by simp [h', hr1])
    rw [← prefixLoop_eq] at h1 h2
    have ec : ensureConnected silentPeerEnv connectedClient = (true, connectedClient) :=
      ensureConnected_of_connected _ _ rfl
    simp only [runMacro, runMacroOutcome, ec, exchange, e1, receiveFrame, h1, hs1,
      Bool.not_true, Bool.not_false, Bool.false_eq_true, if_false, if_true, ne_eq,
      not_true_eq_false]
    refine ⟨rfl, ?_⟩
    rw [h2, hq1]
    omega
  refine ⟨main, ?_⟩
  rintro ⟨B, hB⟩
  have h := hB silentPeerEnv (B + 1) "1+1" connectedClient
  rw [(main (B + 1)).2] at h
  have : connectedClient.waits = 0 := rfl
  omega

/-- C6, amended. The connection loop never needs more than its 300011 iterations,
whatever the environment.  When the channel closes during the `(k+1)`-th wait
after the flush, `runMacro` returns, given a budget of `k + 1` iterations a loop,
and has made at most `k + 1` waits. -/
theorem runMacro_returns_when_closed (env : Env) (fuel k : Nat) (macroCode : String) (c : Client)
    (hdrop : (env ((ensureConnected env c).2.tick + 1 + k)).drop = true)
    (hfuel : k + 1 ≤ fuel) :
    (runMacro env fuel macroCode c).1 ≠ none
    ∧ (runMacro env fuel macroCode c).2.waits ≤ c.waits + (k + 1)
    ∧ ∀ (name : String) (extra : Nat) (c' : Client),
        connectLoop env name (connectBudget + extra) 0 c' = connectLoop env name connectBudget 0 c' := by
  have hw : (ensureConnected env c).2.waits = c.waits := by
    by_cases h : c.sock = SocketState.ConnectedState
    · rw [ensureConnected_of_connected env c h]
    · rw [ensureConnected_of_not env c h]
      exact connectToServer_waits env c
  refine ⟨?_, ?_, ?_⟩
  · simp only [runMacro, runMacroOutcome]
    split
    · simp [Outcome.text]
    · have h := (exchange_returns env fuel macroCode _ k hdrop hfuel).1
      cases hx : (exchange env fuel macroCode (ensureConnected env c).2).1
      · simp [Outcome.text]
      · simp [Outcome.text]
      · exact absurd hx h
  · simp only [runMacro, runMacroOutcome]
    split
    · rw [hw]
      omega
    · have h := (exchange_returns env fuel macroCode _ k hdrop hfuel).2
      rw [hw] at h
      exact h
  · intro name extra c'
    exact connectLoop_enough env name connectBudget 0 c' (by decide) extra

/-- C6, amended, for a peer that sends a length and then closes the channel. -/
theorem runMacro_returns_when_closed_witness :
    (runMacro lengthThenCloseEnv 2 "1+1" connectedClient).1 ≠ none
    ∧ (runMacro lengthThenCloseEnv 2 "1+1" connectedClient).2.waits ≤ 2 :=
  ⟨(runMacro_returns_when_closed lengthThenCloseEnv 2 1 "1+1" connectedClient rfl (by decide)).1,
   (runMacro_returns_when_closed lengthThenCloseEnv 2 1 "1+1" connectedClient rfl (by decide)).2.1⟩

end MacroClient
